import Mathlib

/-!
# Load-command lookup of `src/mach-o/container.cc`

A shallow embedding of `macho::container::find_first_of_load_command` and of
the state it works on.  Machine integers are natural numbers; every place
where the C++ arithmetic is done in a fixed width carries an explicit
`% 2 ^ w`.  Bytes are natural numbers, read modulo 256.  The host is taken to
be little-endian with a 64-bit `size_t`; an image is "big endian" in the sense
of `is_big_endian()` when its byte order is the opposite of the host's.
-/

namespace macho

/-- The enumeration `container::load_command_iteration_result`: the values
the function stores through its `result` pointer. -/
inductive load_command_iteration_result where
  | no_load_commands
  | stream_seek_error
  | stream_read_error
  | load_commands_area_is_too_small
  | load_command_is_too_small
  | load_command_is_too_large
  | failed_to_allocate_memory
  deriving DecidableEq, Repr

/-- Modelled from the spec: the fixed-size Mach-O header (`container.h` and the
header declarations are not part of the source at hand).  Seven 32-bit fields,
kept raw, exactly as read from the image. -/
structure header where
  magic : Nat
  cputype : Nat
  cpusubtype : Nat
  filetype : Nat
  ncmds : Nat
  sizeofcmds : Nat
  flags : Nat
  deriving DecidableEq, Repr

/-- Every field of the header is a `uint32_t`. -/
def header.is_uint32 (h : header) : Prop :=
  h.magic < 2 ^ 32 ∧ h.cputype < 2 ^ 32 ∧ h.cpusubtype < 2 ^ 32 ∧ h.filetype < 2 ^ 32 ∧
    h.ncmds < 2 ^ 32 ∧ h.sizeofcmds < 2 ^ 32 ∧ h.flags < 2 ^ 32

instance (h : header) : Decidable h.is_uint32 := by
  unfold header.is_uint32; infer_instance

/-- Modelled from the spec: `sizeof(header)`, seven 32-bit fields. -/
def sizeof_header : Nat := 28

/-- The generic load-command header `struct load_command { cmd; cmdsize; }`. -/
structure load_command where
  cmd : Nat
  cmdsize : Nat
  deriving DecidableEq, Repr

/-- Modelled from the spec: `sizeof(struct load_command)`, two 32-bit fields. -/
def sizeof_load_command : Nat := 8

/-- Modelled from the spec: `swap_uint32`, the byte-order normalization of a
32-bit field (reverses its four bytes). -/
def swap_uint32 (x : Nat) : Nat :=
  (x % 256) * 16777216 + (x / 256 % 256) * 65536 + (x / 65536 % 256) * 256 + (x / 16777216 % 256)

/-- Modelled from the spec: `swap_load_command`, the byte-order normalization
of both fields of a load-command header. -/
def swap_load_command (lc : load_command) : load_command :=
  ⟨swap_uint32 lc.cmd, swap_uint32 lc.cmdsize⟩

/-- The value a little-endian host reads from four consecutive bytes. -/
def read_uint32 (b0 b1 b2 b3 : Nat) : Nat :=
  b0 % 256 + 256 * (b1 % 256) + 65536 * (b2 % 256) + 16777216 * (b3 % 256)

/-- The dereference `*reinterpret_cast<struct load_command *>(&cache[index])`:
the eight bytes at `index`, read as two host-order 32-bit fields.  `none` when
the eight bytes do not all lie inside the buffer (the C++ read is then outside
the allocation). -/
def read_load_command (cache : List Nat) (index : Nat) : Option load_command :=
  match cache.drop index with
  | b0 :: b1 :: b2 :: b3 :: b4 :: b5 :: b6 :: b7 :: _ =>
    some ⟨read_uint32 b0 b1 b2 b3, read_uint32 b4 b5 b6 b7⟩
  | _ => none

/-- Modelled from the spec: the Byte Stream collaborator (seek / read /
position over shared file contents).  `seeks` and `reads` count the calls made,
as a test double would. -/
structure stream where
  contents : List Nat
  position : Nat
  seeks : Nat
  reads : Nat
  deriving DecidableEq, Repr

/-- Modelled from the spec: `stream.seek(offset, beginning)`.  `ok` is whether
the underlying seek succeeds; a failed seek leaves the position alone. -/
def stream.seek (s : stream) (ok : Bool) (offset : Nat) : Bool × stream :=
  if ok then (true, { s with position := offset, seeks := s.seeks + 1 })
  else (false, { s with seeks := s.seeks + 1 })

/-- Modelled from the spec: `stream.read(buffer, length)`.  It succeeds when
there is no I/O fault (`ok`) and `length` bytes are available at the current
position; it then yields those bytes and advances the position. -/
def stream.read (s : stream) (ok : Bool) (length : Nat) : Option (List Nat) × stream :=
  if ok && decide (s.position + length ≤ s.contents.length) then
    (some ((s.contents.drop s.position).take length),
      { s with position := s.position + length, reads := s.reads + 1 })
  else (none, { s with reads := s.reads + 1 })

/-- What the collaborators do during one call: the outcome of the seek to the
load-command region, the address `malloc` returns (`none` for a null pointer),
whether the read is free of an I/O fault, and the outcome of the seek back. -/
structure environment where
  seek_to_commands : Bool
  malloc : Option Nat
  read : Bool
  seek_back : Bool
  deriving DecidableEq, Repr

/-- An owned heap buffer: its address and the bytes it holds. -/
structure buffer where
  addr : Nat
  bytes : List Nat
  deriving DecidableEq, Repr

/-- The data members of `macho::container`. -/
structure container where
  stream : stream
  base : Nat
  size : Nat
  header : header
  cached_load_commands_ : Option buffer
  cached_symbol_table_ : Option buffer
  cached_string_table_ : Option buffer
  deriving DecidableEq, Repr

/-- Modelled from the spec: `container::is_big_endian()`, derived from the
stored magic: true for the two byte-swapped magic values. -/
def container.is_big_endian (self : container) : Bool :=
  self.header.magic == 0xcefaedfe || self.header.magic == 0xcffaedfe

/-- Modelled from the spec: `container::is_64_bit()`, derived from the stored
magic: true for the two 64-bit magic values. -/
def container.is_64_bit (self : container) : Bool :=
  self.header.magic == 0xfeedfacf || self.header.magic == 0xcffaedfe

/-- How a call of `find_first_of_load_command` ends.
* `found offset`: `return load_command`, a pointer `offset` bytes into the cache;
* `no_match`: the final `return nullptr`, which leaves `*result` alone;
* `error e`: `if (result != nullptr) *result = e; return nullptr`;
* `out_of_bounds offset`: the loop dereferenced a load-command header that is
  not inside the buffer (undefined behaviour in C++). -/
inductive outcome where
  | found (offset : Nat)
  | no_match
  | error (e : load_command_iteration_result)
  | out_of_bounds (offset : Nat)
  deriving DecidableEq, Repr

/-- The pointer the call returns: an offset into the cache, or `nullptr`. -/
def outcome.returned : outcome → Option Nat
  | .found offset => some offset
  | _ => none

/-- The object behind the `result` pointer after the call; `none` stands for
`result == nullptr`. -/
def outcome.result_after (result : Option load_command_iteration_result) :
    outcome → Option load_command_iteration_result
  | .error e => result.map (fun _ => e)
  | _ => result

/-- The `if (created_cached_load_commands) { ... }` block of the loop body
(lines 187-214): the checks on one entry and the update of the 32-bit
`size_used`.  Returns the error to report, or the new `size_used`. -/
def validate_load_command (ncmds sizeofcmds i size_used cmdsize : Nat) :
    Except load_command_iteration_result Nat :=
  if cmdsize < sizeof_load_command then
    .error .load_command_is_too_small
  else
    let size_used := (size_used + cmdsize) % 2 ^ 32
    if size_used > sizeofcmds then
      .error .load_command_is_too_large
    else if i ≠ ncmds - 1 ∧ size_used = sizeofcmds then
      .error .load_command_is_too_large
    else
      .ok size_used

/-- The loop of lines 178-223.  The first numeric argument is the number of
iterations left, `ncmds - i`; then `i`, the 32-bit `cached_load_commands_index`
and the 32-bit `size_used`. -/
def walk (magic_is_big_endian created_cached_load_commands : Bool) (cache : List Nat)
    (cmd ncmds sizeofcmds : Nat) : Nat → Nat → Nat → Nat → outcome
  | 0, _, _, _ => .no_match
  | remaining + 1, i, cached_load_commands_index, size_used =>
    match read_load_command cache cached_load_commands_index with
    | none => .out_of_bounds cached_load_commands_index
    | some load_command =>
      let swapped_load_command :=
        if magic_is_big_endian then swap_load_command load_command else load_command
      match (if created_cached_load_commands then
          validate_load_command ncmds sizeofcmds i size_used swapped_load_command.cmdsize
        else .ok size_used) with
      | .error e => .error e
      | .ok size_used =>
        if swapped_load_command.cmd = cmd then
          .found cached_load_commands_index
        else
          walk magic_is_big_endian created_cached_load_commands cache cmd ncmds sizeofcmds
            remaining (i + 1)
            ((cached_load_commands_index + swapped_load_command.cmdsize) % 2 ^ 32) size_used

/-- The start of the load-command region, `base + sizeof(header)`, plus
`sizeof(uint32_t)` for a 64-bit image; computed in 64-bit `size_t`. -/
def container.load_command_base (self : container) : Nat :=
  (self.base + sizeof_header + (if self.is_64_bit then 4 else 0)) % 2 ^ 64

/-- The function `container::find_first_of_load_command(cmd, result)`: how the
call ends, and the container (with its stream) afterwards. -/
def find_first_of_load_command (env : environment) (self : container) (cmd : Nat) :
    outcome × container :=
  let magic_is_big_endian := self.is_big_endian
  let ncmds := self.header.ncmds
  let sizeofcmds := self.header.sizeofcmds
  if ncmds = 0 ∨ sizeofcmds < sizeof_load_command then
    (.error .no_load_commands, self)
  else
    let load_commands_minimum_size := (sizeof_load_command * ncmds) % 2 ^ 64
    if sizeofcmds < load_commands_minimum_size then
      (.error .load_commands_area_is_too_small, self)
    else
      let load_command_base := self.load_command_base
      match self.cached_load_commands_ with
      | some cache =>
        (walk magic_is_big_endian false cache.bytes cmd ncmds sizeofcmds ncmds 0 0 0, self)
      | none =>
        let position := self.stream.position
        match self.stream.seek env.seek_to_commands load_command_base with
        | (false, s1) => (.error .stream_seek_error, { self with stream := s1 })
        | (true, s1) =>
          match env.malloc with
          | none => (.error .failed_to_allocate_memory, { self with stream := s1 })
          | some addr =>
            match s1.read env.read sizeofcmds with
            | (none, s2) => (.error .stream_read_error, { self with stream := s2 })
            | (some bytes, s2) =>
              match s2.seek env.seek_back position with
              | (false, s3) =>
                (.error .stream_seek_error,
                  { self with stream := s3, cached_load_commands_ := some ⟨addr, bytes⟩ })
              | (true, s3) =>
                (walk magic_is_big_endian true bytes cmd ncmds sizeofcmds ncmds 0 0 0,
                  { self with stream := s3, cached_load_commands_ := some ⟨addr, bytes⟩ })

/-! ## Command tables

The claims speak of a table of load commands.  A table is a list of entries
with their normalized fields; `table_bytes` is its image in the file, in the
byte order of the image. -/

/-- One entry of a command table: the normalized `cmd` and `cmdsize`, and the
bytes that follow the eight-byte header. -/
structure command where
  cmd : Nat
  cmdsize : Nat
  payload : List Nat
  deriving DecidableEq, Repr

/-- The four bytes of a 32-bit value, as a little-endian host stores it. -/
def uint32_bytes (x : Nat) : List Nat :=
  [x % 256, x / 256 % 256, x / 65536 % 256, x / 16777216 % 256]

/-- The eight raw bytes of a load-command header whose normalized fields are
`cmd` and `cmdsize`, in an image that is byte-swapped (`big`) or not. -/
def header_bytes (big : Bool) (cmd cmdsize : Nat) : List Nat :=
  uint32_bytes (if big then swap_uint32 cmd else cmd) ++
    uint32_bytes (if big then swap_uint32 cmdsize else cmdsize)

/-- The raw bytes of one entry. -/
def command.bytes (big : Bool) (e : command) : List Nat :=
  header_bytes big e.cmd e.cmdsize ++ e.payload

/-- The raw bytes of a table: its entries one after the other. -/
def table_bytes (big : Bool) : List command → List Nat
  | [] => []
  | e :: es => e.bytes big ++ table_bytes big es

/-- An entry is well formed when `cmd` is a 32-bit value, `cmdsize` is at
least the size of the header, and the entry occupies `cmdsize` bytes. -/
def command.well_formed (e : command) : Prop :=
  e.cmd < 2 ^ 32 ∧ sizeof_load_command ≤ e.cmdsize ∧ e.payload.length + 8 = e.cmdsize

instance (e : command) : Decidable e.well_formed := by
  unfold command.well_formed; infer_instance

/-- The sum of the `cmdsize` fields of a list of entries. -/
def total_size (tbl : List command) : Nat :=
  (tbl.map (fun e => e.cmdsize)).sum

/-- The entries in front of the first entry of kind `cmd`. -/
def before_first (cmd : Nat) (tbl : List command) : List command :=
  tbl.takeWhile (fun e => e.cmd != cmd)

/-- The stream holds `bytes` at absolute offset `offset`. -/
def stream.holds_at (s : stream) (offset : Nat) (bytes : List Nat) : Prop :=
  offset + bytes.length ≤ s.contents.length ∧
    (s.contents.drop offset).take bytes.length = bytes

instance (s : stream) (offset : Nat) (bytes : List Nat) : Decidable (s.holds_at offset bytes) := by
  unfold stream.holds_at; infer_instance

/-! ## Concrete images used as test inputs -/

/-- Every collaborator call succeeds; `malloc` returns address 4096. -/
def all_succeed : environment := ⟨true, some 4096, true, true⟩

/-- A table of three well-formed entries (8 + 24 + 12 = 44 bytes). -/
def sample_table : List command :=
  [⟨1, 8, []⟩, ⟨13, 24, List.replicate 16 0⟩, ⟨2, 12, [1, 2, 3, 4]⟩]

/-- A container without caches over a stream that holds `before` filler bytes
and then `region`; the stream is positioned at offset 5. -/
def image (magic base ncmds sizeofcmds before : Nat) (region : List Nat) : container :=
  { stream := ⟨List.replicate before 0 ++ region, 5, 0, 0⟩
    base := base
    size := before + region.length - base
    header := ⟨magic, 7, 3, 6, ncmds, sizeofcmds, 0⟩
    cached_load_commands_ := none
    cached_symbol_table_ := none
    cached_string_table_ := none }

/-- A 64-bit image in host byte order at base 4 holding `sample_table`. -/
def sample_image : container :=
  image 0xfeedfacf 4 3 44 36 (table_bytes false sample_table)

/-- A byte-swapped 32-bit image at base 0 whose region holds `sample_table`
in swapped byte order, and whose raw header fields are 3 and 44. -/
def sample_swapped_image : container :=
  image 0xcefaedfe 0 3 44 28 (table_bytes true sample_table)

/-- A 16-byte region: a well-formed entry of kind 1 (`cmdsize` 8), then a
header of kind 2 whose `cmdsize` is 4, smaller than the header itself. -/
def short_entry_region : List Nat :=
  table_bytes false [⟨1, 8, []⟩] ++ header_bytes false 2 4

/-- A 32-bit image in host byte order declaring 2 commands in 16 bytes, over
`short_entry_region`. -/
def short_entry_image : container :=
  image 0xfeedface 0 2 16 28 short_entry_region

/-- A 16-byte region: a well-formed entry of kind 1 (`cmdsize` 8), then a
header of kind 2 whose `cmdsize` is `0xFFFFFFFC`. -/
def wrapping_region : List Nat :=
  table_bytes false [⟨1, 8, []⟩] ++ header_bytes false 2 0xFFFFFFFC

/-- A 32-bit image in host byte order declaring 2 commands in 16 bytes, over
`wrapping_region`. -/
def wrapping_image : container :=
  image 0xfeedface 0 2 16 28 wrapping_region

/-- The normalized headers of the entries the loop visits: up to `n` entries
from `index` on, each located `cmdsize` bytes after the one before (the offset
being the 32-bit `cached_load_commands_index`).  The list stops at a header
that does not lie inside the buffer. -/
def visited (big : Bool) (cache : List Nat) : Nat → Nat → List load_command
  | 0, _ => []
  | n + 1, index =>
    match read_load_command cache index with
    | none => []
    | some lc =>
      let swapped := if big then swap_load_command lc else lc
      swapped :: visited big cache n ((index + swapped.cmdsize) % 2 ^ 32)

/-- A 16-byte region whose first header has kind 1 and `cmdsize` 4096. -/
def oversized_region : List Nat :=
  header_bytes false 1 4096 ++ List.replicate 8 0

/-- A 32-bit image in host byte order declaring 2 commands in 16 bytes, over
`oversized_region`. -/
def oversized_image : container :=
  image 0xfeedface 0 2 16 28 oversized_region

/-- The seek back to the saved position fails; everything before succeeds. -/
def seek_back_fails : environment := ⟨true, some 4096, true, false⟩

/-- A table with a single command of kind 13 and `cmdsize` 24. -/
def dylib_table : List command :=
  [⟨13, 24, List.replicate 16 0⟩]

/-- A byte-swapped 32-bit image as it lies in the file: its normalized header
declares `ncmds = 1` and `sizeofcmds = 24`, so the raw header fields hold the
byte-swapped values `0x01000000` and `0x18000000`; the region holds
`dylib_table` in swapped byte order. -/
def swapped_dylib_image : container :=
  image 0xcefaedfe 0 (swap_uint32 1) (swap_uint32 24) 28 (table_bytes true dylib_table)

/-- The byte-swapped sample image once its cache has been built. -/
def sample_swapped_image_cached : container :=
  { sample_swapped_image with
    cached_load_commands_ := some ⟨4096, table_bytes true sample_table⟩ }

/-! ## Classification queries -/

/-- Modelled from the spec: `load_commands::identification_dylib`, the kind of
the identification-dylib load command (13 in the Mach-O format; the
enumeration is declared in a header that is not part of the source at hand). -/
def identification_dylib : Nat := 13

/-- Modelled from the spec: `sizeof(dylib_command)`, the generic header and
four more 32-bit fields. -/
def sizeof_dylib_command : Nat := 24

/-- Modelled from the spec: `filetype::dylib`, the "dynamic library" file
type (6 in the Mach-O format). -/
def filetype_dylib : Nat := 6

/-- Modelled from the spec: `filetype::executable` (2 in the Mach-O format). -/
def filetype_executable : Nat := 2

/-- The function `container::is_library()` (lines 226-240): the value it
returns and the container afterwards.  The value is `none` where the C++
behaviour is undefined, that is when the lookup read outside the buffer. -/
def is_library (env : environment) (self : container) : Option Bool × container :=
  match find_first_of_load_command env self identification_dylib with
  | (.found offset, self1) =>
    match self1.cached_load_commands_ with
    | none => (none, self1)
    | some cache =>
      match read_load_command cache.bytes offset with
      | none => (none, self1)
      | some identification_dylib =>
        let cmdsize := identification_dylib.cmdsize
        let is_big_endian := self1.is_big_endian
        let cmdsize := if is_big_endian then swap_uint32 cmdsize else cmdsize
        (some (decide (cmdsize ≥ sizeof_dylib_command)), self1)
  | (.out_of_bounds _, self1) => (none, self1)
  | (.no_match, self1) => (some false, self1)
  | (.error _, self1) => (some false, self1)

/-- The function `container::is_dynamic_library()` (lines 242-255). -/
def is_dynamic_library (env : environment) (self : container) : Option Bool × container :=
  let filetype := self.header.filetype
  let is_big_endian := self.is_big_endian
  let filetype := if is_big_endian then swap_uint32 filetype else filetype
  if filetype ≠ filetype_dylib then
    (some false, self)
  else
    is_library env self

/-- A 64-bit image in host byte order at base 0 with the given file type,
declaring one command in 24 bytes, over `dylib_table`. -/
def dylib_image (filetype : Nat) : container :=
  { stream := ⟨List.replicate 32 0 ++ table_bytes false dylib_table, 5, 0, 0⟩
    base := 0
    size := 56
    header := ⟨0xfeedfacf, 7, 3, filetype, 1, 24, 0⟩
    cached_load_commands_ := none
    cached_symbol_table_ := none
    cached_string_table_ := none }

/-! ## Copying, moving and destroying containers -/

/-- Modelled from the spec: the default member initialiser of the three cache
pointers, declared in the absent `container.h`; a container constructed
without naming them starts with empty (null) caches. -/
def default_cache : Option buffer := none

/-- The copy constructor `container(const container &)` (lines 16-17): the new
object.  The cache members are not in the initialiser list. -/
def container.copy_constructed (other : container) : container :=
  { stream := other.stream
    base := other.base
    size := other.size
    header := other.header
    cached_load_commands_ := default_cache
    cached_symbol_table_ := default_cache
    cached_string_table_ := default_cache }

/-- The move constructor `container(container &&)` (lines 19-25): the new
object and the source afterwards.  `moved_from` is the state in which
`std::move` leaves the stream handle of the source. -/
def container.move_constructed (other : container) (moved_from : macho.stream) :
    container × container :=
  ({ stream := other.stream
     base := other.base
     size := other.size
     header := other.header
     cached_load_commands_ := other.cached_load_commands_
     cached_symbol_table_ := other.cached_symbol_table_
     cached_string_table_ := other.cached_string_table_ },
   { other with
     stream := moved_from
     cached_load_commands_ := none
     cached_symbol_table_ := none
     cached_string_table_ := none })

/-- Copy assignment `operator=(const container &)` (lines 27-35): the target
afterwards.  The source is `const` and stays as it is. -/
def container.copy_assigned (self other : container) : container :=
  { self with
    stream := other.stream
    base := other.base
    size := other.size
    header := other.header }

/-- Move assignment `operator=(container &&)` (lines 37-54): the target and
the source afterwards. -/
def container.move_assigned (self other : container) (moved_from : macho.stream) :
    container × container :=
  ({ self with
     stream := other.stream
     base := other.base
     size := other.size
     header := other.header
     cached_load_commands_ := other.cached_load_commands_
     cached_symbol_table_ := other.cached_symbol_table_
     cached_string_table_ := other.cached_string_table_ },
   { other with
     stream := moved_from
     cached_load_commands_ := none
     cached_symbol_table_ := none
     cached_string_table_ := none })

/-- The destructor `~container()` (lines 92-104): the addresses it passes to
`free`, in order. -/
def container.destroy (self : container) : List Nat :=
  (match self.cached_load_commands_ with
    | some b => [b.addr]
    | none => []) ++
  (match self.cached_symbol_table_ with
    | some b => [b.addr]
    | none => []) ++
  (match self.cached_string_table_ with
    | some b => [b.addr]
    | none => [])

/-- The cache buffers a container holds: the addresses in its non-null cache
pointers. -/
def container.held (self : container) : List Nat :=
  [self.cached_load_commands_, self.cached_symbol_table_, self.cached_string_table_].filterMap
    (fun c => c.map (fun b => b.addr))

/-- The host-order sample image with its load-command cache built. -/
def sample_image_cached : container :=
  { sample_image with cached_load_commands_ := some ⟨4096, table_bytes false sample_table⟩ }

/-- A container holding a load-command cache at address 8192 and a
symbol-table cache at address 12288. -/
def other_cached_image : container :=
  { short_entry_image with
    cached_load_commands_ := some ⟨8192, short_entry_region⟩
    cached_symbol_table_ := some ⟨12288, [0, 0, 0, 0]⟩ }

/-- A stream handle after it has been moved from. -/
def moved_from_stream : stream := ⟨[], 0, 0, 0⟩

/-- The byte-swapped sample image seen through a window of 36 bytes: the
window ends at offset 36 while the declared load-command region covers the
offsets 28 to 72 of the stream. -/
def windowed_image : container :=
  { sample_swapped_image with size := 36 }

/-- The allocation fails; the seeks and the read would succeed. -/
def malloc_fails : environment := ⟨true, none, true, true⟩

/-- The read fails; the seeks and the allocation succeed. -/
def read_fails : environment := ⟨true, some 4096, false, true⟩

/-- A 17-byte region whose first header has kind 1 and `cmdsize` 12. -/
def tight_region : List Nat :=
  header_bytes false 1 12 ++ List.replicate 9 0

/-- A 32-bit image in host byte order declaring 2 commands in 17 bytes, over
`tight_region`. -/
def tight_image : container :=
  image 0xfeedface 0 2 17 28 tight_region

/-! ## Byte-level lemmas -/

theorem swap_uint32_lt (x : Nat) : swap_uint32 x < 2 ^ 32 := by
  unfold swap_uint32; omega

theorem swap_uint32_of_bytes (a b c d : Nat) (ha : a < 256) (hb : b < 256) (hc : c < 256)
    (hd : d < 256) :
    swap_uint32 (a + 256 * b + 65536 * c + 16777216 * d) =
      d + 256 * c + 65536 * b + 16777216 * a := by
  unfold swap_uint32; omega

theorem swap_uint32_swap_uint32 (x : Nat) (h : x < 2 ^ 32) :
    swap_uint32 (swap_uint32 x) = x := by
  have hx : x = x % 256 + 256 * (x / 256 % 256) + 65536 * (x / 65536 % 256) +
      16777216 * (x / 16777216 % 256) := by omega
  have h0 : x % 256 < 256 := by omega
  have h1 : x / 256 % 256 < 256 := by omega
  have h2 : x / 65536 % 256 < 256 := by omega
  have h3 : x / 16777216 % 256 < 256 := by omega
  generalize x % 256 = a at hx h0
  generalize x / 256 % 256 = b at hx h1
  generalize x / 65536 % 256 = c at hx h2
  generalize x / 16777216 % 256 = d at hx h3
  subst hx
  rw [swap_uint32_of_bytes a b c d h0 h1 h2 h3, swap_uint32_of_bytes d c b a h3 h2 h1 h0]

theorem read_uint32_lt (b0 b1 b2 b3 : Nat) : read_uint32 b0 b1 b2 b3 < 2 ^ 32 := by
  unfold read_uint32; omega

theorem read_uint32_bytes (x : Nat) (h : x < 2 ^ 32) :
    read_uint32 (x % 256) (x / 256 % 256) (x / 65536 % 256) (x / 16777216 % 256) = x := by
  unfold read_uint32; omega

theorem header_bytes_length (big : Bool) (cmd cmdsize : Nat) :
    (header_bytes big cmd cmdsize).length = 8 := by
  simp [header_bytes, uint32_bytes]

theorem command_bytes_length (big : Bool) (e : command) (h : e.well_formed) :
    (e.bytes big).length = e.cmdsize := by
  obtain ⟨-, -, h3⟩ := h
  simp [command.bytes, header_bytes_length]; omega

/-- The loop reads back the normalized fields of a header stored at `index`. -/
theorem read_load_command_header (big : Bool) (cache rest : List Nat) (index cmd cmdsize : Nat)
    (hc : cmd < 2 ^ 32) (hs : cmdsize < 2 ^ 32)
    (h : cache.drop index = header_bytes big cmd cmdsize ++ rest) :
    ∃ lc, read_load_command cache index = some lc ∧
      (if big then swap_load_command lc else lc) = ⟨cmd, cmdsize⟩ := by
  unfold read_load_command
  rw [h]
  cases big
  · simp [header_bytes, uint32_bytes, read_uint32_bytes _ hc, read_uint32_bytes _ hs]
  · simp [header_bytes, uint32_bytes, swap_load_command,
      read_uint32_bytes _ (swap_uint32_lt cmd), read_uint32_bytes _ (swap_uint32_lt cmdsize),
      swap_uint32_swap_uint32 _ hc, swap_uint32_swap_uint32 _ hs]

/-- One iteration of the loop on an entry whose header is readable. -/
theorem walk_step (big created : Bool) (cache : List Nat) (cmd ncmds sizeofcmds : Nat)
    (n i index size_used c s : Nat)
    (h : ∃ lc, read_load_command cache index = some lc ∧
      (if big then swap_load_command lc else lc) = ⟨c, s⟩) :
    walk big created cache cmd ncmds sizeofcmds (n + 1) i index size_used =
      match (if created then validate_load_command ncmds sizeofcmds i size_used s
        else .ok size_used) with
      | .error e => .error e
      | .ok su =>
        if c = cmd then .found index
        else walk big created cache cmd ncmds sizeofcmds n (i + 1) ((index + s) % 2 ^ 32) su := by
  obtain ⟨lc, h1, h2⟩ := h
  rw [walk, h1]
  simp only [h2]

theorem drop_after_command (big : Bool) (cache rest : List Nat) (index : Nat) (e : command)
    (hw : e.well_formed) (h : cache.drop index = e.bytes big ++ rest) :
    cache.drop (index + e.cmdsize) = rest := by
  have hl := command_bytes_length big e hw
  have : cache.drop (index + e.cmdsize) = (cache.drop index).drop e.cmdsize := by
    rw [List.drop_drop]
  rw [this, h, ← hl, List.drop_left]

theorem total_size_cons (e : command) (es : List command) :
    total_size (e :: es) = e.cmdsize + total_size es := by
  simp [total_size]

theorem total_size_append (xs ys : List command) :
    total_size (xs ++ ys) = total_size xs + total_size ys := by
  simp [total_size]

/-- The checks pass on an entry that keeps the running total within bounds. -/
theorem validate_load_command_ok (ncmds sizeofcmds i size_used s : Nat)
    (h8 : 8 ≤ s) (hlt : size_used + s < 2 ^ 32) (hle : size_used + s ≤ sizeofcmds)
    (hlast : i ≠ ncmds - 1 → size_used + s ≠ sizeofcmds) :
    validate_load_command ncmds sizeofcmds i size_used s = .ok (size_used + s) := by
  unfold validate_load_command sizeof_load_command
  rw [Nat.mod_eq_of_lt hlt]
  rw [if_neg (by omega), if_neg (by omega)]
  by_cases hi : i = ncmds - 1
  · rw [if_neg (by simp [hi])]
  · rw [if_neg (by simp [hlast hi])]

/-- The loop steps over a run of well-formed entries, none of the requested
kind, that stay strictly below `sizeofcmds`. -/
theorem walk_skip (big created : Bool) (cache : List Nat) (cmd ncmds sizeofcmds : Nat)
    (pre : List command) :
    ∀ (rest : List Nat) (m i index size_used : Nat),
      (∀ e ∈ pre, e.well_formed ∧ e.cmd ≠ cmd) →
      cache.drop index = table_bytes big pre ++ rest →
      index + total_size pre < 2 ^ 32 →
      (created = true → size_used + total_size pre < sizeofcmds) →
      sizeofcmds < 2 ^ 32 →
      walk big created cache cmd ncmds sizeofcmds (pre.length + m) i index size_used =
        walk big created cache cmd ncmds sizeofcmds m (i + pre.length)
          (index + total_size pre) (if created then size_used + total_size pre else size_used) := by
  induction pre with
  | nil =>
    intro rest m i index size_used _ _ _ _ _
    simp [total_size]
  | cons e es ih =>
    intro rest m i index size_used hall hdrop hidx hsu hsz
    have he := hall e (List.mem_cons_self e es)
    obtain ⟨hw, hne⟩ := he
    have hw2 := hw
    obtain ⟨hc, h8, hp⟩ := hw2
    rw [total_size_cons] at hidx hsu
    have hdrop2 : cache.drop index =
        header_bytes big e.cmd e.cmdsize ++ (e.payload ++ (table_bytes big es ++ rest)) := by
      rw [hdrop]; simp [table_bytes, command.bytes]
    have hread := read_load_command_header big cache _ index e.cmd e.cmdsize hc (by omega) hdrop2
    have hlen : (e :: es).length + m = (es.length + m) + 1 := by simp; omega
    rw [hlen, walk_step big created cache cmd ncmds sizeofcmds _ i index size_used _ _ hread]
    have hnext : cache.drop (index + e.cmdsize) = table_bytes big es ++ rest := by
      apply drop_after_command big cache _ index e hw
      rw [hdrop]; simp [table_bytes]
    have hmod : (index + e.cmdsize) % 2 ^ 32 = index + e.cmdsize := Nat.mod_eq_of_lt (by omega)
    have hall2 : ∀ x ∈ es, x.well_formed ∧ x.cmd ≠ cmd :=
      fun x hx => hall x (List.mem_cons_of_mem e hx)
    cases created with
    | false =>
      simp only [Bool.false_eq_true, if_false, if_neg hne, hmod]
      rw [ih rest m (i + 1) (index + e.cmdsize) size_used hall2 hnext (by omega) (by simp) hsz]
      simp [total_size_cons]; congr 1 <;> omega
    | true =>
      have hsu2 := hsu rfl
      unfold sizeof_load_command at h8
      rw [if_pos rfl, validate_load_command_ok ncmds sizeofcmds i size_used e.cmdsize h8
        (by omega) (by omega) (by omega)]
      simp only [if_neg hne, hmod]
      rw [ih rest m (i + 1) (index + e.cmdsize) (size_used + e.cmdsize) hall2 hnext (by omega)
        (fun _ => by omega) hsz]
      simp [total_size_cons]; congr 1 <;> omega

theorem table_bytes_append (big : Bool) (xs ys : List command) :
    table_bytes big (xs ++ ys) = table_bytes big xs ++ table_bytes big ys := by
  induction xs with
  | nil => simp [table_bytes]
  | cons x xs ih => simp [table_bytes, ih]

theorem total_size_ge (tbl : List command) (h : ∀ e ∈ tbl, e.well_formed) :
    8 * tbl.length ≤ total_size tbl := by
  induction tbl with
  | nil => simp [total_size]
  | cons e es ih =>
    have he := (h e (List.mem_cons_self e es)).2.1
    have := ih (fun x hx => h x (List.mem_cons_of_mem e hx))
    unfold sizeof_load_command at he
    rw [total_size_cons, List.length_cons]; omega

theorem table_bytes_length (big : Bool) (tbl : List command) (h : ∀ e ∈ tbl, e.well_formed) :
    (table_bytes big tbl).length = total_size tbl := by
  induction tbl with
  | nil => simp [table_bytes, total_size]
  | cons e es ih =>
    have he := command_bytes_length big e (h e (List.mem_cons_self e es))
    have := ih (fun x hx => h x (List.mem_cons_of_mem e hx))
    simp [table_bytes, total_size_cons, he, this]

theorem drop_after_table (big : Bool) (cache rest : List Nat) (index : Nat) (pre : List command)
    (hw : ∀ e ∈ pre, e.well_formed) (h : cache.drop index = table_bytes big pre ++ rest) :
    cache.drop (index + total_size pre) = rest := by
  have hl := table_bytes_length big pre hw
  have : cache.drop (index + total_size pre) = (cache.drop index).drop (total_size pre) := by
    rw [List.drop_drop]
  rw [this, h, ← hl, List.drop_left]

/-- A table with an entry of kind `cmd` splits at its first such entry. -/
theorem split_at_first (cmd : Nat) (tbl : List command) (h : ∃ e ∈ tbl, e.cmd = cmd) :
    ∃ e post, tbl = before_first cmd tbl ++ e :: post ∧ e.cmd = cmd ∧
      ∀ x ∈ before_first cmd tbl, x.cmd ≠ cmd := by
  induction tbl with
  | nil => obtain ⟨e, he, -⟩ := h; simp at he
  | cons a t ih =>
    by_cases ha : a.cmd = cmd
    · refine ⟨a, t, ?_, ha, ?_⟩ <;> simp [before_first, List.takeWhile, ha]
    · have ht : ∃ e ∈ t, e.cmd = cmd := by
        obtain ⟨e, he, hc⟩ := h
        rcases List.mem_cons.mp he with rfl | he
        · exact absurd hc ha
        · exact ⟨e, he, hc⟩
      obtain ⟨e, post, h1, h2, h3⟩ := ih ht
      have hb : before_first cmd (a :: t) = a :: before_first cmd t := by
        have hne : (a.cmd != cmd) = true := by simp [ha]
        simp [before_first, List.takeWhile, hne]
      refine ⟨e, post, ?_, h2, ?_⟩
      · rw [hb]; simp; exact h1
      · rw [hb]; intro x hx
        rcases List.mem_cons.mp hx with rfl | hx
        · exact ha
        · exact h3 x hx

/-- The loop, validating or not, on the bytes of a well-formed table that
fills `sizeofcmds` exactly: it stops at the first entry of the requested kind. -/
theorem walk_table_found (big created : Bool) (cmd ncmds sizeofcmds : Nat) (tbl : List command)
    (hn : ncmds = tbl.length) (hw : ∀ e ∈ tbl, e.well_formed)
    (hsum : total_size tbl = sizeofcmds) (hsz : sizeofcmds < 2 ^ 32)
    (hocc : ∃ e ∈ tbl, e.cmd = cmd) :
    walk big created (table_bytes big tbl) cmd ncmds sizeofcmds ncmds 0 0 0 =
      .found (total_size (before_first cmd tbl)) := by
  obtain ⟨e, post, hsplit, hcmd, hpre⟩ := split_at_first cmd tbl hocc
  generalize before_first cmd tbl = pre at hsplit hpre
  subst hsplit
  have hwpre : ∀ x ∈ pre, x.well_formed := fun x hx => hw x (by simp [hx])
  have hwe : e.well_formed := hw e (by simp)
  have hwpost : ∀ x ∈ post, x.well_formed := fun x hx => hw x (by simp [hx])
  have hgp := total_size_ge post hwpost
  obtain ⟨hc, h8, hp⟩ := hwe
  unfold sizeof_load_command at h8
  rw [total_size_append, total_size_cons] at hsum
  have hbytes : (table_bytes big (pre ++ e :: post)).drop 0 =
      table_bytes big pre ++ (e.bytes big ++ table_bytes big post) := by
    rw [table_bytes_append]; simp [table_bytes]
  have hlen : ncmds = pre.length + (post.length + 1) := by rw [hn]; simp
  rw [hlen, walk_skip big created _ cmd _ sizeofcmds pre _ (post.length + 1) 0 0 0
    (fun x hx => ⟨hwpre x hx, hpre x hx⟩) hbytes (by omega) (fun _ => by omega) hsz]
  have hdrop := drop_after_table big _ _ 0 pre hwpre hbytes
  have hdrop2 : (table_bytes big (pre ++ e :: post)).drop (0 + total_size pre) =
      header_bytes big e.cmd e.cmdsize ++ (e.payload ++ table_bytes big post) := by
    rw [hdrop]; simp [command.bytes]
  have hread := read_load_command_header big _ _ _ e.cmd e.cmdsize hc (by omega) hdrop2
  rw [walk_step big created _ cmd _ sizeofcmds _ _ _ _ _ _ hread]
  cases created with
  | false => simp [hcmd]
  | true =>
    rw [if_pos rfl, validate_load_command_ok _ sizeofcmds _ _ e.cmdsize h8
      (by simp; omega) (by simp; omega) (by
        intro hi
        have : post.length ≠ 0 := by omega
        have : 1 ≤ post.length := Nat.one_le_iff_ne_zero.mpr this
        simp; omega)]
    simp [hcmd]

/-! ## The two ways into the loop -/

/-- A call on a container without cache, whose header passes the two
pre-checks and whose seeks, allocation and read succeed: the cache is built
from the region bytes, the position is restored, and the validating loop
decides the outcome. -/
theorem find_first_of_load_command_build (env : environment) (self : container) (cmd addr : Nat)
    (bytes : List Nat) (hu : self.header.ncmds < 2 ^ 32) (h0 : self.header.ncmds ≠ 0)
    (h8 : 8 * self.header.ncmds ≤ self.header.sizeofcmds)
    (hnone : self.cached_load_commands_ = none)
    (e1 : env.seek_to_commands = true) (e2 : env.malloc = some addr) (e3 : env.read = true)
    (e4 : env.seek_back = true)
    (hold : self.stream.holds_at self.load_command_base bytes)
    (hlen : bytes.length = self.header.sizeofcmds) :
    find_first_of_load_command env self cmd =
      (walk self.is_big_endian true bytes cmd self.header.ncmds self.header.sizeofcmds
          self.header.ncmds 0 0 0,
        { self with
          stream := { self.stream with seeks := self.stream.seeks + 2,
                                       reads := self.stream.reads + 1 },
          cached_load_commands_ := some ⟨addr, bytes⟩ }) := by
  obtain ⟨hb1, hb2⟩ := hold
  rw [hlen] at hb1 hb2
  have hmin : (sizeof_load_command * self.header.ncmds) % 2 ^ 64 = 8 * self.header.ncmds := by
    unfold sizeof_load_command; omega
  unfold find_first_of_load_command
  rw [if_neg (by unfold sizeof_load_command; omega)]
  simp only [hmin]
  rw [if_neg (by omega)]
  simp [hnone, stream.seek, stream.read, e1, e2, e3, e4, hb1, hb2]

/-- A call on a container that already holds a cache, whose header passes the
two pre-checks: the loop runs without validation and nothing else changes. -/
theorem find_first_of_load_command_cached (env : environment) (self : container) (cmd : Nat)
    (cache : buffer) (hu : self.header.ncmds < 2 ^ 32) (h0 : self.header.ncmds ≠ 0)
    (h8 : 8 * self.header.ncmds ≤ self.header.sizeofcmds)
    (hsome : self.cached_load_commands_ = some cache) :
    find_first_of_load_command env self cmd =
      (walk self.is_big_endian false cache.bytes cmd self.header.ncmds self.header.sizeofcmds
          self.header.ncmds 0 0 0, self) := by
  have hmin : (sizeof_load_command * self.header.ncmds) % 2 ^ 64 = 8 * self.header.ncmds := by
    unfold sizeof_load_command; omega
  unfold find_first_of_load_command
  rw [if_neg (by unfold sizeof_load_command; omega)]
  simp only [hmin]
  rw [if_neg (by omega)]
  simp [hsome]

/-! ## Lookup on a well-formed table -/

/-- C1: for a header with `ncmds = N ≥ 1` and a table of `N` well-formed
entries (each `cmdsize ≥ 8`) whose sizes sum to `sizeofcmds`, and a kind that
occurs in the table, the call returns a pointer at cache offset equal to the
sum of the sizes of the entries in front of the first entry of that kind;
both when the call builds the cache from a stream holding the table bytes at
the region start, and when it runs on an existing cache holding them. -/
theorem find_first_of_load_command_returns_first_match (env : environment) (self : container)
    (cmd addr : Nat) (tbl : List command)
    (hu : self.header.is_uint32)
    (hn : self.header.ncmds = tbl.length) (h1 : 1 ≤ tbl.length)
    (hw : ∀ e ∈ tbl, e.well_formed)
    (hsum : total_size tbl = self.header.sizeofcmds)
    (hocc : ∃ e ∈ tbl, e.cmd = cmd) :
    (self.cached_load_commands_ = none → env.seek_to_commands = true →
      env.malloc = some addr → env.read = true → env.seek_back = true →
      self.stream.holds_at self.load_command_base (table_bytes self.is_big_endian tbl) →
      (find_first_of_load_command env self cmd).1 =
        .found (total_size (before_first cmd tbl))) ∧
    (∀ cache, self.cached_load_commands_ = some cache →
      cache.bytes = table_bytes self.is_big_endian tbl →
      (find_first_of_load_command env self cmd).1 =
        .found (total_size (before_first cmd tbl))) := by
  obtain ⟨-, -, -, -, hnc, hsz, -⟩ := hu
  have hge := total_size_ge tbl hw
  have h0 : self.header.ncmds ≠ 0 := by omega
  have h8 : 8 * self.header.ncmds ≤ self.header.sizeofcmds := by omega
  constructor
  · intro hnone e1 e2 e3 e4 hold
    have hlen : (table_bytes self.is_big_endian tbl).length = self.header.sizeofcmds := by
      rw [table_bytes_length _ tbl hw, hsum]
    rw [find_first_of_load_command_build env self cmd addr _ hnc h0 h8 hnone e1 e2 e3 e4 hold hlen]
    exact walk_table_found _ true cmd _ _ tbl hn hw hsum hsz hocc
  · intro cache hsome hbytes
    rw [find_first_of_load_command_cached env self cmd cache hnc h0 h8 hsome, hbytes]
    exact walk_table_found _ false cmd _ _ tbl hn hw hsum hsz hocc

/-- C1 at concrete inputs: in the byte-swapped sample image the entry of
kind 2 is found at offset 8 + 24 = 32, both while the cache is built and on
the cache once built. -/
theorem find_first_of_load_command_returns_first_match_witness :
    (find_first_of_load_command all_succeed sample_swapped_image 2).1 = .found 32 ∧
      (find_first_of_load_command all_succeed sample_swapped_image_cached 2).1 = .found 32 :=
  ⟨(find_first_of_load_command_returns_first_match all_succeed sample_swapped_image 2 4096
      sample_table (by decide) (by decide) (by decide) (by decide) (by decide)
      (by decide)).1 (by decide) (by decide) (by decide) (by decide) (by decide) (by decide),
    (find_first_of_load_command_returns_first_match all_succeed sample_swapped_image_cached 2
      4096 sample_table (by decide) (by decide) (by decide) (by decide) (by decide)
      (by decide)).2 ⟨4096, table_bytes true sample_table⟩ (by decide) (by decide)⟩

/-! ## Entries that are too small -/

/-- C2, as stated, fails: in `short_entry_image` the second entry has
`cmdsize` 4 and the entry before it is well formed, yet the cache-building
lookup of kind 1 returns the first entry and reports nothing; so the
too-small error is not reported for every requested kind. -/
theorem too_small_not_reported_for_every_kind :
    short_entry_image.stream.holds_at short_entry_image.load_command_base
        (table_bytes false [⟨1, 8, []⟩] ++ header_bytes false 2 4) ∧
      (find_first_of_load_command all_succeed short_entry_image 1).1 = .found 0 ∧
      ¬ ∀ cmd, (find_first_of_load_command all_succeed short_entry_image cmd).1 =
        .error .load_command_is_too_small :=
  ⟨by decide, by decide, fun h => absurd (h 1) (by decide)⟩

/-- C2, amended: when the region holds a run of well-formed entries, then a
header whose normalized `cmdsize` is below 8, the header passes the
pre-checks and the bad entry is among the `ncmds` declared ones, the
cache-building call reports `load_command_is_too_small` and returns null for
every requested kind that none of the entries in front of the bad one has. -/
theorem find_first_of_load_command_too_small (env : environment) (self : container)
    (cmd addr : Nat) (pre : List command) (bad_cmd bad_cmdsize : Nat) (rest : List Nat)
    (hu : self.header.is_uint32) (h0 : self.header.ncmds ≠ 0)
    (h8 : 8 * self.header.ncmds ≤ self.header.sizeofcmds)
    (hnone : self.cached_load_commands_ = none)
    (e1 : env.seek_to_commands = true) (e2 : env.malloc = some addr) (e3 : env.read = true)
    (e4 : env.seek_back = true)
    (hold : self.stream.holds_at self.load_command_base
      (table_bytes self.is_big_endian pre ++
        (header_bytes self.is_big_endian bad_cmd bad_cmdsize ++ rest)))
    (hlen : (table_bytes self.is_big_endian pre ++
        (header_bytes self.is_big_endian bad_cmd bad_cmdsize ++ rest)).length =
      self.header.sizeofcmds)
    (hw : ∀ e ∈ pre, e.well_formed) (hk : pre.length < self.header.ncmds)
    (hbc : bad_cmd < 2 ^ 32) (hbad : bad_cmdsize < sizeof_load_command)
    (hno : ∀ e ∈ pre, e.cmd ≠ cmd) :
    (find_first_of_load_command env self cmd).1 = .error .load_command_is_too_small ∧
      (find_first_of_load_command env self cmd).1.returned = none := by
  obtain ⟨-, -, -, -, hnc, hsz, -⟩ := hu
  have hwalk : walk self.is_big_endian true
      (table_bytes self.is_big_endian pre ++
        (header_bytes self.is_big_endian bad_cmd bad_cmdsize ++ rest))
      cmd self.header.ncmds self.header.sizeofcmds self.header.ncmds 0 0 0 =
      .error .load_command_is_too_small := by
    have hl := hlen
    simp only [List.length_append, table_bytes_length _ pre hw, header_bytes_length] at hl
    unfold sizeof_load_command at hbad
    have hbytes : (table_bytes self.is_big_endian pre ++
        (header_bytes self.is_big_endian bad_cmd bad_cmdsize ++ rest)).drop 0 =
        table_bytes self.is_big_endian pre ++
          (header_bytes self.is_big_endian bad_cmd bad_cmdsize ++ rest) := rfl
    have hsplit : self.header.ncmds =
        pre.length + ((self.header.ncmds - pre.length - 1) + 1) := by omega
    rw [hsplit, walk_skip _ true _ cmd _ self.header.sizeofcmds pre _ _ 0 0 0
      (fun x hx => ⟨hw x hx, hno x hx⟩) hbytes (by omega) (fun _ => by omega) hsz]
    have hdrop := drop_after_table _ _ _ 0 pre hw hbytes
    have hread := read_load_command_header self.is_big_endian _ _ _ bad_cmd bad_cmdsize hbc
      (by omega) hdrop
    rw [walk_step _ true _ cmd _ self.header.sizeofcmds _ _ _ _ _ _ hread]
    simp [validate_load_command, sizeof_load_command, hbad]
  rw [find_first_of_load_command_build env self cmd addr _ hnc h0 h8 hnone e1 e2 e3 e4 hold hlen,
    hwalk]
  exact ⟨rfl, rfl⟩

/-- C2 amended, at a concrete input: looking up kind 2 in `short_entry_image`
reaches the 4-byte entry and reports the too-small error. -/
theorem find_first_of_load_command_too_small_witness :
    (find_first_of_load_command all_succeed short_entry_image 2).1 =
        .error .load_command_is_too_small ∧
      (find_first_of_load_command all_succeed short_entry_image 2).1.returned = none :=
  find_first_of_load_command_too_small all_succeed short_entry_image 2 4096 [⟨1, 8, []⟩] 2 4 []
    (by decide) (by decide) (by decide) (by decide) (by decide) (by decide) (by decide)
    (by decide) (by decide) (by decide) (by decide) (by decide) (by decide) (by decide)
    (by decide)

/-! ## Entries that are too large -/

/-- The too-large check, when the 32-bit running total does not wrap: the
region holds a run of well-formed entries, none of the requested kind, then a
header with which the total exceeds `sizeofcmds`, or equals it before the last
declared entry.  The cache-building call reports `load_command_is_too_large`,
whatever the kind of that entry. -/
theorem too_large_without_wrap (env : environment) (self : container)
    (cmd addr : Nat) (pre : List command) (c s : Nat) (rest : List Nat)
    (hu : self.header.is_uint32) (h0 : self.header.ncmds ≠ 0)
    (h8 : 8 * self.header.ncmds ≤ self.header.sizeofcmds)
    (hnone : self.cached_load_commands_ = none)
    (e1 : env.seek_to_commands = true) (e2 : env.malloc = some addr) (e3 : env.read = true)
    (e4 : env.seek_back = true)
    (hold : self.stream.holds_at self.load_command_base
      (table_bytes self.is_big_endian pre ++ (header_bytes self.is_big_endian c s ++ rest)))
    (hlen : (table_bytes self.is_big_endian pre ++
        (header_bytes self.is_big_endian c s ++ rest)).length = self.header.sizeofcmds)
    (hw : ∀ e ∈ pre, e.well_formed) (hk : pre.length < self.header.ncmds)
    (hc : c < 2 ^ 32) (hno : ∀ e ∈ pre, e.cmd ≠ cmd)
    (hnowrap : total_size pre + s < 2 ^ 32)
    (hlarge : self.header.sizeofcmds < total_size pre + s ∨
      (total_size pre + s = self.header.sizeofcmds ∧ pre.length ≠ self.header.ncmds - 1)) :
    (find_first_of_load_command env self cmd).1 = .error .load_command_is_too_large := by
  obtain ⟨-, -, -, -, hnc, hsz, -⟩ := hu
  have hl := hlen
  simp only [List.length_append, table_bytes_length _ pre hw, header_bytes_length] at hl
  have hbytes : (table_bytes self.is_big_endian pre ++
      (header_bytes self.is_big_endian c s ++ rest)).drop 0 =
      table_bytes self.is_big_endian pre ++
        (header_bytes self.is_big_endian c s ++ rest) := rfl
  have hsplit : self.header.ncmds =
      pre.length + ((self.header.ncmds - pre.length - 1) + 1) := by omega
  rw [find_first_of_load_command_build env self cmd addr _ hnc h0 h8 hnone e1 e2 e3 e4 hold hlen]
  show walk _ _ _ _ _ _ _ _ _ _ = _
  rw [hsplit, walk_skip _ true _ cmd _ self.header.sizeofcmds pre _ _ 0 0 0
    (fun x hx => ⟨hw x hx, hno x hx⟩) hbytes (by omega) (fun _ => by omega) hsz]
  have hdrop := drop_after_table _ _ _ 0 pre hw hbytes
  have hread := read_load_command_header self.is_big_endian _ _ _ c s hc (by omega) hdrop
  rw [walk_step _ true _ cmd _ self.header.sizeofcmds _ _ _ _ _ _ hread]
  have hmod : (0 + total_size pre + s) % 2 ^ 32 = total_size pre + s := by
    rw [Nat.zero_add]; exact Nat.mod_eq_of_lt hnowrap
  have hs8 : ¬ s < 8 := by omega
  simp only [if_true, validate_load_command, sizeof_load_command, if_neg hs8, hmod,
    ← hsplit]
  rcases hlarge with h | ⟨h1, h2⟩
  · rw [if_pos (by omega)]
  · rw [if_neg (by omega), if_pos ⟨by omega, h1⟩]

/-- C3 at its failing input: in `wrapping_image` the entry in front is valid
and not of kind 2, and the exact running sum through the second entry,
8 + 4294967292, exceeds `sizeofcmds = 16`; but the 32-bit `size_used` wraps to
4, the check passes, and the cache-building call returns the second entry
(offset 8) instead of reporting `load_command_is_too_large`. -/
theorem too_large_missed_when_total_wraps :
    wrapping_image.stream.holds_at wrapping_image.load_command_base
        (table_bytes false [⟨1, 8, []⟩] ++ header_bytes false 2 4294967292) ∧
      wrapping_image.header.sizeofcmds < total_size [⟨1, 8, []⟩] + 4294967292 ∧
      (find_first_of_load_command all_succeed wrapping_image 2).1 = .found 8 ∧
      (find_first_of_load_command all_succeed wrapping_image 3).1 = .no_match :=
  ⟨by decide, by decide, by decide, by decide⟩

/-! ## What a completed validating walk guarantees -/

/-- C5 at its failing input: the first lookup in `oversized_image` builds the
cache, finds the first entry too large (`cmdsize` 4096 in a 16-byte region),
reports the error and returns with the cache still in place.  The second
lookup therefore skips validation, steps 4096 bytes forward and reads a
load-command header at offset 4096 of the 16-byte buffer. -/
theorem unvalidated_cache_read_out_of_bounds :
    oversized_image.cached_load_commands_ = none ∧
      (find_first_of_load_command all_succeed oversized_image 2).1 =
        .error .load_command_is_too_large ∧
      (find_first_of_load_command all_succeed oversized_image 2).2.cached_load_commands_ =
        some ⟨4096, oversized_region⟩ ∧
      oversized_region.length = 16 ∧
      (find_first_of_load_command all_succeed
        (find_first_of_load_command all_succeed oversized_image 2).2 2).1 =
        .out_of_bounds 4096 :=
  ⟨by decide, by decide, by decide, by decide, by decide⟩

/-- C6 at its failing inputs: a call that starts without cache and reports
`load_command_is_too_small` (`short_entry_image`), `load_command_is_too_large`
(`oversized_image`) or the `stream_seek_error` of the seek back
(`sample_image` with `seek_back_fails`) returns with the cache in place; the
next lookup in `short_entry_image` does not touch the stream again and
answers no-match from the retained buffer. -/
theorem cache_retained_after_error :
    ((find_first_of_load_command all_succeed short_entry_image 3).1 =
        .error .load_command_is_too_small ∧
      (find_first_of_load_command all_succeed short_entry_image 3).2.cached_load_commands_ =
        some ⟨4096, short_entry_region⟩) ∧
    ((find_first_of_load_command all_succeed oversized_image 3).1 =
        .error .load_command_is_too_large ∧
      (find_first_of_load_command all_succeed oversized_image 3).2.cached_load_commands_ =
        some ⟨4096, oversized_region⟩) ∧
    ((find_first_of_load_command seek_back_fails sample_image 3).1 =
        .error .stream_seek_error ∧
      (find_first_of_load_command seek_back_fails sample_image 3).2.cached_load_commands_ =
        some ⟨4096, table_bytes false sample_table⟩) ∧
    find_first_of_load_command all_succeed
        (find_first_of_load_command all_succeed short_entry_image 3).2 3 =
      (.no_match, (find_first_of_load_command all_succeed short_entry_image 3).2) :=
  ⟨⟨by decide, by decide⟩, ⟨by decide, by decide⟩, ⟨by decide, by decide⟩, by decide⟩

/-- The failures in front of the loop that do leave the container without
cache: the seek to the region, the allocation and the read. -/
theorem no_cache_after_early_failure (env : environment) (self : container) (cmd : Nat)
    (hnone : self.cached_load_commands_ = none)
    (h : env.seek_to_commands = false ∨ env.malloc = none ∨ env.read = false ∨
      self.stream.contents.length < self.load_command_base + self.header.sizeofcmds) :
    (find_first_of_load_command env self cmd).2.cached_load_commands_ = none := by
  obtain ⟨e1, e2, e3, e4⟩ := env
  by_cases hp1 : self.header.ncmds = 0 ∨ self.header.sizeofcmds < sizeof_load_command
  · simp [find_first_of_load_command, hp1, hnone]
  by_cases hp2 : self.header.sizeofcmds <
      (sizeof_load_command * self.header.ncmds) % 18446744073709551616
  · simp [find_first_of_load_command, hp1, hp2, hnone]
  cases e1 with
  | false => simp [find_first_of_load_command, hp1, hp2, hnone, stream.seek]
  | true =>
    cases e2 with
    | none => simp [find_first_of_load_command, hp1, hp2, hnone, stream.seek]
    | some addr =>
      have hr : ¬ (e3 = true ∧
          self.load_command_base + self.header.sizeofcmds ≤ self.stream.contents.length) := by
        rintro ⟨h3, h4⟩
        rcases h with h | h | h | h
        · simp at h
        · simp at h
        · simp at h; simp [h] at h3
        · omega
      simp [find_first_of_load_command, hp1, hp2, hnone, stream.seek, stream.read, hr]

/-! ## The header pre-check -/

/-- C7: if `ncmds == 0` or `sizeofcmds < 8` the call reports
`no_load_commands`; otherwise, if `sizeofcmds < 8 * ncmds` (the exact product)
it reports `load_commands_area_is_too_small`.  In both cases it returns null
and the container, with its cache and its stream (position and call counters
included), is exactly as before. -/
theorem header_pre_check (env : environment) (self : container) (cmd : Nat)
    (hu : self.header.ncmds < 2 ^ 32) :
    ((self.header.ncmds = 0 ∨ self.header.sizeofcmds < 8) →
      find_first_of_load_command env self cmd = (.error .no_load_commands, self) ∧
        (find_first_of_load_command env self cmd).1.returned = none) ∧
    (¬ (self.header.ncmds = 0 ∨ self.header.sizeofcmds < 8) →
      self.header.sizeofcmds < 8 * self.header.ncmds →
      find_first_of_load_command env self cmd = (.error .load_commands_area_is_too_small, self) ∧
        (find_first_of_load_command env self cmd).1.returned = none) := by
  have hmin : (sizeof_load_command * self.header.ncmds) % 2 ^ 64 = 8 * self.header.ncmds := by
    unfold sizeof_load_command; omega
  constructor
  · intro h
    have heq : find_first_of_load_command env self cmd = (.error .no_load_commands, self) := by
      unfold find_first_of_load_command
      rw [if_pos (by unfold sizeof_load_command; exact h)]
    rw [heq]; exact ⟨rfl, rfl⟩
  · intro h1 h2
    have heq : find_first_of_load_command env self cmd =
        (.error .load_commands_area_is_too_small, self) := by
      unfold find_first_of_load_command
      rw [if_neg (by unfold sizeof_load_command; exact h1)]
      simp only [hmin]
      rw [if_pos h2]
    rw [heq]; exact ⟨rfl, rfl⟩

/-- C7 at concrete inputs: a header with `ncmds = 0` is rejected with
`no_load_commands`, a header declaring 3 commands in 16 bytes with
`load_commands_area_is_too_small`; in both cases nothing changes. -/
theorem header_pre_check_witness :
    (find_first_of_load_command all_succeed (image 0xfeedface 0 0 16 28 short_entry_region) 1 =
        (.error .no_load_commands, image 0xfeedface 0 0 16 28 short_entry_region) ∧
      (find_first_of_load_command all_succeed
        (image 0xfeedface 0 0 16 28 short_entry_region) 1).1.returned = none) ∧
    (find_first_of_load_command all_succeed (image 0xfeedface 0 3 16 28 short_entry_region) 1 =
        (.error .load_commands_area_is_too_small, image 0xfeedface 0 3 16 28 short_entry_region) ∧
      (find_first_of_load_command all_succeed
        (image 0xfeedface 0 3 16 28 short_entry_region) 1).1.returned = none) :=
  ⟨(header_pre_check all_succeed (image 0xfeedface 0 0 16 28 short_entry_region) 1
      (by decide)).1 (by decide),
    (header_pre_check all_succeed (image 0xfeedface 0 3 16 28 short_entry_region) 1
      (by decide)).2 (by decide) (by decide)⟩

/-! ## The error-result output -/

/-- The loop, validating or not, on the bytes of a well-formed table that
fills `sizeofcmds` exactly and has no entry of the requested kind: it visits
every entry and ends in no-match. -/
theorem walk_table_no_match (big created : Bool) (cmd ncmds sizeofcmds : Nat)
    (tbl : List command) (hn : ncmds = tbl.length) (hw : ∀ e ∈ tbl, e.well_formed)
    (hsum : total_size tbl = sizeofcmds) (hsz : sizeofcmds < 2 ^ 32)
    (hno : ∀ e ∈ tbl, e.cmd ≠ cmd) :
    walk big created (table_bytes big tbl) cmd ncmds sizeofcmds ncmds 0 0 0 = .no_match := by
  rcases List.eq_nil_or_concat tbl with rfl | ⟨init, last, hcat⟩
  · subst hn; rfl
  · rw [List.concat_eq_append] at hcat
    subst hcat
    have hwi : ∀ x ∈ init, x.well_formed := fun x hx => hw x (by simp [hx])
    have hwl : last.well_formed := hw last (by simp)
    obtain ⟨hc, h8, hp⟩ := hwl
    unfold sizeof_load_command at h8
    rw [total_size_append, total_size_cons] at hsum
    have hnil : total_size [] = 0 := rfl
    rw [hnil] at hsum
    have hbytes : (table_bytes big (init ++ [last])).drop 0 =
        table_bytes big init ++ (last.bytes big ++ []) := by
      rw [table_bytes_append]; simp [table_bytes]
    have hlen : ncmds = init.length + (0 + 1) := by rw [hn]; simp
    rw [hlen, walk_skip big created _ cmd _ sizeofcmds init _ (0 + 1) 0 0 0
      (fun x hx => ⟨hwi x hx, hno x (by simp [hx])⟩) hbytes (by omega) (fun _ => by omega) hsz]
    have hdrop := drop_after_table big _ _ 0 init hwi hbytes
    have hdrop2 : (table_bytes big (init ++ [last])).drop (0 + total_size init) =
        header_bytes big last.cmd last.cmdsize ++ (last.payload ++ []) := by
      rw [hdrop]; simp [command.bytes]
    have hread := read_load_command_header big _ _ _ last.cmd last.cmdsize hc (by omega) hdrop2
    rw [walk_step big created _ cmd _ sizeofcmds _ _ _ _ _ _ hread]
    have hne : last.cmd ≠ cmd := hno last (by simp)
    cases created with
    | false => simp [hne, walk]
    | true =>
      rw [if_pos rfl, validate_load_command_ok _ sizeofcmds _ _ last.cmdsize h8
        (by simp; omega) (by simp; omega) (by intro hi; exfalso; apply hi; simp)]
      simp [hne, walk]

/-- The object behind `result` changes for some prior content exactly when the
call ends in an error. -/
theorem result_written_iff_error (o : outcome) :
    (∃ e, o = .error e) ↔ ∃ r, o.result_after (some r) ≠ some r := by
  constructor
  · rintro ⟨e, rfl⟩
    by_cases he : e = .no_load_commands
    · exact ⟨.stream_seek_error, by subst he; simp [outcome.result_after]⟩
    · exact ⟨.no_load_commands, by
        simp only [outcome.result_after, Option.map_some', ne_eq, Option.some.injEq]
        exact he⟩
  · rintro ⟨r, hr⟩
    cases o with
    | error e => exact ⟨e, rfl⟩
    | found _ => exact absurd rfl hr
    | no_match => exact absurd rfl hr
    | out_of_bounds _ => exact absurd rfl hr

/-- A lookup on a structurally valid table (as in C1), whether the call builds
the cache or runs on an existing one, never ends in an error: a kind that
occurs is found at its first entry, a kind that does not occur gives
no-match. -/
theorem lookup_on_valid_table (env : environment) (self : container)
    (cmd addr : Nat) (tbl : List command)
    (hu : self.header.is_uint32)
    (hn : self.header.ncmds = tbl.length) (h1 : 1 ≤ tbl.length)
    (hw : ∀ e ∈ tbl, e.well_formed)
    (hsum : total_size tbl = self.header.sizeofcmds)
    (hstart : (self.cached_load_commands_ = none ∧ env.seek_to_commands = true ∧
        env.malloc = some addr ∧ env.read = true ∧ env.seek_back = true ∧
        self.stream.holds_at self.load_command_base (table_bytes self.is_big_endian tbl)) ∨
      (∃ cache, self.cached_load_commands_ = some cache ∧
        cache.bytes = table_bytes self.is_big_endian tbl)) :
    ((∃ e ∈ tbl, e.cmd = cmd) →
      (find_first_of_load_command env self cmd).1 =
        .found (total_size (before_first cmd tbl))) ∧
    ((∀ e ∈ tbl, e.cmd ≠ cmd) →
      (find_first_of_load_command env self cmd).1 = .no_match) := by
  obtain ⟨-, -, -, -, hnc, hsz, -⟩ := hu
  have hge := total_size_ge tbl hw
  have h0 : self.header.ncmds ≠ 0 := by omega
  have h8 : 8 * self.header.ncmds ≤ self.header.sizeofcmds := by omega
  have hwalk : ∃ created, (find_first_of_load_command env self cmd).1 =
      walk self.is_big_endian created (table_bytes self.is_big_endian tbl) cmd
        self.header.ncmds self.header.sizeofcmds self.header.ncmds 0 0 0 := by
    rcases hstart with ⟨hnone, e1, e2, e3, e4, hold⟩ | ⟨cache, hsome, hbytes⟩
    · have hlen : (table_bytes self.is_big_endian tbl).length = self.header.sizeofcmds := by
        rw [table_bytes_length _ tbl hw, hsum]
      exact ⟨true, by
        rw [find_first_of_load_command_build env self cmd addr _ hnc h0 h8 hnone e1 e2 e3 e4
          hold hlen]⟩
    · exact ⟨false, by
        rw [find_first_of_load_command_cached env self cmd cache hnc h0 h8 hsome, hbytes]⟩
  obtain ⟨created, hcall⟩ := hwalk
  exact ⟨fun hocc => by
      rw [hcall]; exact walk_table_found _ created cmd _ _ tbl hn hw hsum hsz hocc,
    fun hno => by
      rw [hcall]; exact walk_table_no_match _ created cmd _ _ tbl hn hw hsum hsz hno⟩

/-- C8: for every call, the object behind `result` is written if and only if
the call ends in an error: a call that ends in the error `e` returns null and
leaves `e` in the object, whatever it held before; a call that does not end
in an error leaves the object holding the value it had; a null `result` is
never written through.  On a structurally valid table (as in C1), whether the
call builds the cache or runs on an existing one, the call does not end in an
error: a call that returns a match and a call that walks all entries without
a match both leave the object as it was, and the no-match call returns
null. -/
theorem result_written_only_on_error (env : environment) (self : container)
    (cmd addr : Nat) (tbl : List command) (result : Option load_command_iteration_result) :
    ((∃ e, (find_first_of_load_command env self cmd).1 = .error e) ↔
      ∃ r, (find_first_of_load_command env self cmd).1.result_after (some r) ≠ some r) ∧
    (∀ e, (find_first_of_load_command env self cmd).1 = .error e →
      (find_first_of_load_command env self cmd).1.returned = none ∧
      ∀ r, (find_first_of_load_command env self cmd).1.result_after (some r) = some e) ∧
    ((∀ e, (find_first_of_load_command env self cmd).1 ≠ .error e) →
      (find_first_of_load_command env self cmd).1.result_after result = result) ∧
    (find_first_of_load_command env self cmd).1.result_after none = none ∧
    (self.header.is_uint32 → self.header.ncmds = tbl.length → 1 ≤ tbl.length →
      (∀ e ∈ tbl, e.well_formed) → total_size tbl = self.header.sizeofcmds →
      ((self.cached_load_commands_ = none ∧ env.seek_to_commands = true ∧
          env.malloc = some addr ∧ env.read = true ∧ env.seek_back = true ∧
          self.stream.holds_at self.load_command_base (table_bytes self.is_big_endian tbl)) ∨
        (∃ cache, self.cached_load_commands_ = some cache ∧
          cache.bytes = table_bytes self.is_big_endian tbl)) →
      (find_first_of_load_command env self cmd).1.result_after result = result ∧
      ((∃ e ∈ tbl, e.cmd = cmd) →
        (find_first_of_load_command env self cmd).1.returned =
          some (total_size (before_first cmd tbl))) ∧
      ((∀ e ∈ tbl, e.cmd ≠ cmd) →
        (find_first_of_load_command env self cmd).1 = .no_match ∧
        (find_first_of_load_command env self cmd).1.returned = none)) := by
  refine ⟨result_written_iff_error _, ?_, ?_, ?_, ?_⟩
  · intro e he
    rw [he]
    exact ⟨rfl, fun _ => rfl⟩
  · intro hne
    cases ho : (find_first_of_load_command env self cmd).1 with
    | error e => exact absurd ho (hne e)
    | found _ => rfl
    | no_match => rfl
    | out_of_bounds _ => rfl
  · cases (find_first_of_load_command env self cmd).1 <;> rfl
  · intro hu hn h1 hw hsum hstart
    obtain ⟨hfound, hnomatch⟩ :=
      lookup_on_valid_table env self cmd addr tbl hu hn h1 hw hsum hstart
    refine ⟨?_, ?_, ?_⟩
    · by_cases hocc : ∃ e ∈ tbl, e.cmd = cmd
      · rw [hfound hocc]; rfl
      · rw [hnomatch (fun e he hc => hocc ⟨e, he, hc⟩)]; rfl
    · intro hocc; rw [hfound hocc]; rfl
    · intro hno; rw [hnomatch hno]; exact ⟨rfl, rfl⟩

/-- C8 at concrete inputs.  The lookup of kind 3 in `short_entry_image` ends
in `load_command_is_too_small`: it returns null and a `result` object that
held `stream_read_error` now holds `load_command_is_too_small`; the lookup
with a header declaring no commands leaves `no_load_commands` in it.  The
lookup of kind 7 on the valid table of `sample_image` ends in no-match: it
returns null and the object still holds `stream_read_error`; the lookup of
kind 2 returns the entry at offset 32 and leaves the object alone. -/
theorem result_written_only_on_error_witness :
    ((find_first_of_load_command all_succeed short_entry_image 3).1.returned = none ∧
      (find_first_of_load_command all_succeed short_entry_image 3).1.result_after
        (some .stream_read_error) = some .load_command_is_too_small) ∧
    ((find_first_of_load_command all_succeed (image 0xfeedface 0 0 16 28 short_entry_region)
        3).1.returned = none ∧
      (find_first_of_load_command all_succeed (image 0xfeedface 0 0 16 28 short_entry_region)
        3).1.result_after (some .stream_read_error) = some .no_load_commands) ∧
    ((find_first_of_load_command all_succeed sample_image 7).1.result_after
        (some .stream_read_error) = some .stream_read_error ∧
      (find_first_of_load_command all_succeed sample_image 7).1 = .no_match ∧
      (find_first_of_load_command all_succeed sample_image 7).1.returned = none) ∧
    ((find_first_of_load_command all_succeed sample_image 2).1.result_after
        (some .stream_read_error) = some .stream_read_error ∧
      (find_first_of_load_command all_succeed sample_image 2).1.returned = some 32) :=
  have hsmall := (result_written_only_on_error all_succeed short_entry_image 3 4096 []
    (some .stream_read_error)).2.1 .load_command_is_too_small (by decide)
  have hnone := (result_written_only_on_error all_succeed
    (image 0xfeedface 0 0 16 28 short_entry_region) 3 4096 []
    (some .stream_read_error)).2.1 .no_load_commands (by decide)
  have h7 := (result_written_only_on_error all_succeed sample_image 7 4096 sample_table
    (some .stream_read_error)).2.2.2.2 (by decide) (by decide) (by decide) (by decide)
    (by decide) (Or.inl ⟨by decide, by decide, by decide, by decide, by decide, by decide⟩)
  have h2 := (result_written_only_on_error all_succeed sample_image 2 4096 sample_table
    (some .stream_read_error)).2.2.2.2 (by decide) (by decide) (by decide) (by decide)
    (by decide) (Or.inl ⟨by decide, by decide, by decide, by decide, by decide, by decide⟩)
  ⟨⟨hsmall.1, hsmall.2 _⟩, ⟨hnone.1, hnone.2 _⟩, ⟨h7.1, h7.2.2 (by decide)⟩,
    ⟨h2.1, h2.2.1 (by decide)⟩⟩

/-! ## The contents of the cache -/

/-- C9: when a call starts without cache, the header passes the pre-checks
and both seeks, the allocation and the read succeed, the cache it leaves holds
exactly `sizeofcmds` bytes, equal one by one to the stream contents from
offset `base + sizeof(header)` on for a 32-bit image and from
`base + sizeof(header) + 4` on for a 64-bit image; whatever the byte order of
the image and however the walk ends. -/
theorem built_cache_is_raw_region (env : environment) (self : container) (cmd addr : Nat)
    (hu : self.header.ncmds < 2 ^ 32) (h0 : self.header.ncmds ≠ 0)
    (h8 : 8 * self.header.ncmds ≤ self.header.sizeofcmds)
    (hnone : self.cached_load_commands_ = none)
    (e1 : env.seek_to_commands = true) (e2 : env.malloc = some addr) (e3 : env.read = true)
    (e4 : env.seek_back = true)
    (hbase : self.base + sizeof_header + 4 < 2 ^ 64)
    (havail : self.base + sizeof_header + (if self.is_64_bit then 4 else 0) +
      self.header.sizeofcmds ≤ self.stream.contents.length) :
    ∃ bytes, (find_first_of_load_command env self cmd).2.cached_load_commands_ =
        some ⟨addr, bytes⟩ ∧
      bytes.length = self.header.sizeofcmds ∧
      (self.is_64_bit = false →
        bytes = (self.stream.contents.drop (self.base + sizeof_header)).take
          self.header.sizeofcmds ∧
        ∀ k, k < self.header.sizeofcmds →
          bytes[k]? = self.stream.contents[self.base + sizeof_header + k]?) ∧
      (self.is_64_bit = true →
        bytes = (self.stream.contents.drop (self.base + sizeof_header + 4)).take
          self.header.sizeofcmds ∧
        ∀ k, k < self.header.sizeofcmds →
          bytes[k]? = self.stream.contents[self.base + sizeof_header + 4 + k]?) := by
  have hlcb : self.load_command_base =
      self.base + sizeof_header + (if self.is_64_bit then 4 else 0) := by
    unfold container.load_command_base
    apply Nat.mod_eq_of_lt
    split <;> omega
  have hlen : ((self.stream.contents.drop self.load_command_base).take
      self.header.sizeofcmds).length = self.header.sizeofcmds := by
    rw [List.length_take, List.length_drop, hlcb]; omega
  have hold : self.stream.holds_at self.load_command_base
      ((self.stream.contents.drop self.load_command_base).take self.header.sizeofcmds) := by
    constructor
    · rw [hlen, hlcb]; exact havail
    · rw [hlen]
  rw [find_first_of_load_command_build env self cmd addr _ hu h0 h8 hnone e1 e2 e3 e4 hold hlen]
  refine ⟨_, rfl, hlen, ?_, ?_⟩
  · intro h64
    rw [hlcb, h64]
    refine ⟨rfl, ?_⟩
    intro k hk
    simp only [Bool.false_eq_true, if_false, Nat.add_zero]
    rw [List.getElem?_take_of_lt hk, List.getElem?_drop]
  · intro h64
    rw [hlcb, h64]
    refine ⟨rfl, ?_⟩
    intro k hk
    simp only [if_true]
    rw [List.getElem?_take_of_lt hk, List.getElem?_drop]

/-- C9 at a concrete input: in the byte-swapped 32-bit sample image at base 0
the cache is the 44 raw bytes found at offset 28 of the stream. -/
theorem built_cache_is_raw_region_witness :
    ∃ bytes, (find_first_of_load_command all_succeed sample_swapped_image 2).2.cached_load_commands_ =
        some ⟨4096, bytes⟩ ∧
      bytes.length = sample_swapped_image.header.sizeofcmds ∧
      (sample_swapped_image.is_64_bit = false →
        bytes = (sample_swapped_image.stream.contents.drop
          (sample_swapped_image.base + sizeof_header)).take
            sample_swapped_image.header.sizeofcmds ∧
        ∀ k, k < sample_swapped_image.header.sizeofcmds →
          bytes[k]? = sample_swapped_image.stream.contents[
            sample_swapped_image.base + sizeof_header + k]?) ∧
      (sample_swapped_image.is_64_bit = true →
        bytes = (sample_swapped_image.stream.contents.drop
          (sample_swapped_image.base + sizeof_header + 4)).take
            sample_swapped_image.header.sizeofcmds ∧
        ∀ k, k < sample_swapped_image.header.sizeofcmds →
          bytes[k]? = sample_swapped_image.stream.contents[
            sample_swapped_image.base + sizeof_header + 4 + k]?) :=
  built_cache_is_raw_region all_succeed sample_swapped_image 2 4096 (by decide) (by decide)
    (by decide) (by decide) (by decide) (by decide) (by decide) (by decide) (by decide)
    (by decide)

/-! ## Byte order of the header fields -/

/-- C10 at its failing input: `swapped_dylib_image` is a well-formed
byte-swapped image whose normalized header declares one command in 24 bytes
and whose region holds that command.  The call compares and uses the raw
fields `0x01000000` and `0x18000000`: it asks the stream for 402653184 bytes
and ends in `stream_read_error`, where the same region under the normalized
values 1 and 24 yields the entry at offset 0. -/
theorem header_fields_used_without_normalization :
    swapped_dylib_image.is_big_endian = true ∧
      swap_uint32 swapped_dylib_image.header.ncmds = 1 ∧
      swap_uint32 swapped_dylib_image.header.sizeofcmds = 24 ∧
      swapped_dylib_image.header.ncmds = 16777216 ∧
      swapped_dylib_image.header.sizeofcmds = 402653184 ∧
      swapped_dylib_image.stream.holds_at swapped_dylib_image.load_command_base
        (table_bytes true dylib_table) ∧
      (find_first_of_load_command all_succeed swapped_dylib_image 13).1 =
        .error .stream_read_error ∧
      (find_first_of_load_command all_succeed
        (image 0xcefaedfe 0 1 24 28 (table_bytes true dylib_table)) 13).1 = .found 0 :=
  ⟨by decide, by decide, by decide, by decide, by decide, by decide, by decide, by decide⟩

/-! ## Classification queries: `is_library` and `is_dynamic_library` -/

/-- A walk that returns an entry has read that entry's header inside the
buffer, and the normalized `cmd` read there is the requested kind. -/
theorem walk_found_readable (big created : Bool) (cache : List Nat)
    (cmd ncmds sizeofcmds : Nat) :
    ∀ (n i index su offset : Nat),
      walk big created cache cmd ncmds sizeofcmds n i index su = .found offset →
      ∃ lc, read_load_command cache offset = some lc ∧
        (if big then swap_load_command lc else lc).cmd = cmd := by
  intro n
  induction n with
  | zero => intro i index su offset h; simp [walk] at h
  | succ n ih =>
    intro i index su offset h
    rw [walk] at h
    cases hr : read_load_command cache index with
    | none => simp [hr] at h
    | some lc =>
      simp only [hr] at h
      generalize hsw : (if big = true then swap_load_command lc else lc) = sw at h
      cases hv : (if created = true then
          validate_load_command ncmds sizeofcmds i su sw.cmdsize else Except.ok su) with
      | error e => simp [hv] at h
      | ok su2 =>
        simp only [hv] at h
        by_cases hc : sw.cmd = cmd
        · rw [if_pos hc] at h
          simp only [outcome.found.injEq] at h
          subst h
          exact ⟨lc, hr, by rw [hsw]; exact hc⟩
        · rw [if_neg hc] at h
          exact ih _ _ _ _ h

/-- A call that does not end in an error has run the loop on the cache the
container holds afterwards. -/
theorem find_first_of_load_command_walk_inv (env : environment) (self : container) (cmd : Nat)
    (hne : ∀ e, (find_first_of_load_command env self cmd).1 ≠ .error e) :
    ∃ cache created,
      (find_first_of_load_command env self cmd).2.cached_load_commands_ = some cache ∧
      (find_first_of_load_command env self cmd).2.header = self.header ∧
      (find_first_of_load_command env self cmd).1 =
        walk self.is_big_endian created cache.bytes cmd self.header.ncmds
          self.header.sizeofcmds self.header.ncmds 0 0 0 := by
  obtain ⟨e1, e2, e3, e4⟩ := env
  by_cases hp1 : self.header.ncmds = 0 ∨ self.header.sizeofcmds < sizeof_load_command
  · exact absurd (by simp [find_first_of_load_command, hp1]) (hne .no_load_commands)
  by_cases hp2 : self.header.sizeofcmds <
      (sizeof_load_command * self.header.ncmds) % 18446744073709551616
  · exact absurd (by simp [find_first_of_load_command, hp1, hp2])
      (hne .load_commands_area_is_too_small)
  cases hcache : self.cached_load_commands_ with
  | some c0 =>
    refine ⟨c0, false, ?_, ?_, ?_⟩ <;>
      simp [find_first_of_load_command, hp1, hp2, hcache]
  | none =>
    cases e1 with
    | false =>
      exact absurd (by simp [find_first_of_load_command, hp1, hp2, hcache, stream.seek])
        (hne .stream_seek_error)
    | true =>
      cases e2 with
      | none =>
        exact absurd (by simp [find_first_of_load_command, hp1, hp2, hcache, stream.seek])
          (hne .failed_to_allocate_memory)
      | some addr =>
        by_cases hr : e3 = true ∧
            self.load_command_base + self.header.sizeofcmds ≤ self.stream.contents.length
        · cases e4 with
          | false =>
            exact absurd (by
              simp [find_first_of_load_command, hp1, hp2, hcache, stream.seek, stream.read, hr])
              (hne .stream_seek_error)
          | true =>
            refine ⟨⟨addr, (self.stream.contents.drop self.load_command_base).take
              self.header.sizeofcmds⟩, true, ?_, ?_, ?_⟩ <;>
              simp [find_first_of_load_command, hp1, hp2, hcache, stream.seek, stream.read, hr]
        · exact absurd (by
            simp [find_first_of_load_command, hp1, hp2, hcache, stream.seek, stream.read, hr])
            (hne .stream_read_error)


/-- A call that returns an entry leaves a cache in which the header of that
entry lies inside the buffer; the header of the image is unchanged. -/
theorem found_entry_readable (env : environment) (self : container) (cmd offset : Nat)
    (h : (find_first_of_load_command env self cmd).1 = .found offset) :
    ∃ cache lc,
      (find_first_of_load_command env self cmd).2.cached_load_commands_ = some cache ∧
      (find_first_of_load_command env self cmd).2.is_big_endian = self.is_big_endian ∧
      read_load_command cache.bytes offset = some lc ∧
      (if self.is_big_endian then swap_load_command lc else lc).cmd = cmd := by
  obtain ⟨cache, created, h1, h2, h3⟩ :=
    find_first_of_load_command_walk_inv env self cmd (by intro e he; rw [h] at he; cases he)
  rw [h] at h3
  obtain ⟨lc, h4, h5⟩ := walk_found_readable _ _ _ _ _ _ _ _ _ _ _ h3.symm
  exact ⟨cache, lc, h1, by simp [container.is_big_endian, h2], h4, h5⟩

/-- C11: `is_library()` returns true if and only if the lookup of
`identification_dylib` returns an entry and the normalized `cmdsize` of that
entry, read in the cache, is at least `sizeof(dylib_command)`; it returns
false when the lookup ends in no-match and when it ends in any error; it is
defined whenever the lookup returns an entry; the container is left as the
lookup leaves it. -/
theorem is_library_iff (env : environment) (self : container) :
    ((is_library env self).1 = some true ↔
      ∃ offset cache lc,
        (find_first_of_load_command env self identification_dylib).1 = .found offset ∧
        (find_first_of_load_command env self identification_dylib).2.cached_load_commands_ =
          some cache ∧
        read_load_command cache.bytes offset = some lc ∧
        sizeof_dylib_command ≤
          (if self.is_big_endian then swap_uint32 lc.cmdsize else lc.cmdsize)) ∧
    ((find_first_of_load_command env self identification_dylib).1 = .no_match →
      (is_library env self).1 = some false) ∧
    (∀ e, (find_first_of_load_command env self identification_dylib).1 = .error e →
      (is_library env self).1 = some false) ∧
    (∀ offset, (find_first_of_load_command env self identification_dylib).1 = .found offset →
      ∃ b, (is_library env self).1 = some b) ∧
    (is_library env self).2 = (find_first_of_load_command env self identification_dylib).2 := by
  have hread := found_entry_readable env self identification_dylib
  unfold is_library
  rcases hf : find_first_of_load_command env self identification_dylib with ⟨o, s1⟩
  rw [hf] at hread
  cases o with
  | no_match => simp
  | error e => simp
  | out_of_bounds k => simp
  | found offset =>
    obtain ⟨cache, lc, h1, h2, h3, -⟩ := hread offset rfl
    simp only at h1 h2
    simp only [h1, h3, h2]
    refine ⟨?_, by simp, by simp, by simp, trivial⟩
    constructor
    · intro h
      refine ⟨offset, cache, lc, rfl, rfl, h3, ?_⟩
      simpa using h
    · rintro ⟨offset2, cache2, lc2, ho, hc, hl, hs⟩
      simp only [outcome.found.injEq] at ho
      subst ho
      simp only [Option.some.injEq] at hc
      subst hc
      rw [h3] at hl
      simp only [Option.some.injEq] at hl
      subst hl
      simpa using hs

/-- C12: `is_dynamic_library()` is (normalized `header.filetype` equals dylib)
AND `is_library()`, and false without a lookup when the file type differs.
In particular, on a well-formed 64-bit host-order image with `ncmds = 1`,
`sizeofcmds = sizeof(dylib_command)` and a single `identification_dylib`
command of that size, `is_library()` is true, and `is_dynamic_library()` is
true for file type dylib and false for file type executable. -/
theorem is_dynamic_library_eq (env : environment) (self : container) (addr : Nat)
    (payload : List Nat) :
    ((if self.is_big_endian then swap_uint32 self.header.filetype
        else self.header.filetype) ≠ filetype_dylib →
      is_dynamic_library env self = (some false, self)) ∧
    (∀ b, (is_library env self).1 = some b →
      (is_dynamic_library env self).1 =
        some (decide ((if self.is_big_endian then swap_uint32 self.header.filetype
          else self.header.filetype) = filetype_dylib) && b)) ∧
    (self.header.magic = 0xfeedfacf → self.header.ncmds = 1 →
      self.header.sizeofcmds = sizeof_dylib_command → payload.length = 16 →
      self.cached_load_commands_ = none → env.seek_to_commands = true →
      env.malloc = some addr → env.read = true → env.seek_back = true →
      self.stream.holds_at self.load_command_base
        (table_bytes false [⟨identification_dylib, sizeof_dylib_command, payload⟩]) →
      (is_library env self).1 = some true ∧
      (self.header.filetype = filetype_dylib → (is_dynamic_library env self).1 = some true) ∧
      (self.header.filetype = filetype_executable →
        (is_dynamic_library env self).1 = some false)) := by
  have hgen : ∀ b, (is_library env self).1 = some b →
      (is_dynamic_library env self).1 =
        some (decide ((if self.is_big_endian then swap_uint32 self.header.filetype
          else self.header.filetype) = filetype_dylib) && b) := by
    intro b hb
    unfold is_dynamic_library
    by_cases hft : (if self.is_big_endian then swap_uint32 self.header.filetype
        else self.header.filetype) = filetype_dylib
    · simp only [hft, ne_eq, not_true_eq_false, if_false, hb, decide_True, Bool.true_and]
    · simp only [hft, ne_eq, not_false_eq_true, if_true, decide_False, Bool.false_and]
  refine ⟨?_, hgen, ?_⟩
  · intro hft
    unfold is_dynamic_library
    simp only [ne_eq, hft, not_false_eq_true, if_true]
  intro hm hn hs hp hnone e1 e2 e3 e4 hold
  have hbig : self.is_big_endian = false := by simp [container.is_big_endian, hm]
  have hw : ∀ e ∈ [(⟨identification_dylib, sizeof_dylib_command, payload⟩ : command)],
      e.well_formed := by
    intro e he
    simp only [List.mem_singleton] at he
    subst he
    exact ⟨by simp [identification_dylib], by simp [sizeof_load_command, sizeof_dylib_command],
      by simp [hp, sizeof_dylib_command]⟩
  have hlen : (table_bytes false
      [(⟨identification_dylib, sizeof_dylib_command, payload⟩ : command)]).length =
      self.header.sizeofcmds := by
    rw [table_bytes_length _ _ hw, hs]; simp [total_size]
  have hfind := find_first_of_load_command_build env self identification_dylib addr _
    (by rw [hn]; decide) (by rw [hn]; decide) (by rw [hn, hs]; decide) hnone e1 e2 e3 e4 hold hlen
  have hwalk := walk_table_found false true identification_dylib self.header.ncmds
    self.header.sizeofcmds [⟨identification_dylib, sizeof_dylib_command, payload⟩]
    (by rw [hn]; rfl) hw (by rw [hs]; simp [total_size]) (by rw [hs]; decide)
    ⟨_, List.mem_singleton.mpr rfl, rfl⟩
  rw [hbig, hwalk] at hfind
  have hoff : total_size (before_first identification_dylib
      [(⟨identification_dylib, sizeof_dylib_command, payload⟩ : command)]) = 0 := by
    simp [before_first, total_size]
  rw [hoff] at hfind
  obtain ⟨lc, hlc1, hlc2⟩ := read_load_command_header false
    (table_bytes false [(⟨identification_dylib, sizeof_dylib_command, payload⟩ : command)])
    (payload ++ []) 0 identification_dylib sizeof_dylib_command (by decide) (by decide)
    (by simp [table_bytes, command.bytes])
  simp only [Bool.false_eq_true, if_false] at hlc2
  subst hlc2
  have hlib : (is_library env self).1 = some true := by
    unfold is_library
    rw [hfind]
    simp only [hlc1]
    simp [container.is_big_endian, hm]
  refine ⟨hlib, ?_, ?_⟩
  · intro hft
    rw [hgen true hlib, hbig]
    simp [hft]
  · intro hft
    rw [hgen true hlib, hbig]
    simp [hft, filetype_executable, filetype_dylib]

/-- C11 at concrete inputs: `is_library()` is true on the dylib image, whose
identification command has `cmdsize` 24, and false on `swapped_dylib_image`,
where the lookup ends in `stream_read_error`. -/
theorem is_library_iff_witness :
    (is_library all_succeed (dylib_image filetype_dylib)).1 = some true ∧
      (is_library all_succeed swapped_dylib_image).1 = some false :=
  ⟨(is_library_iff all_succeed (dylib_image filetype_dylib)).1.mpr
      ⟨0, ⟨4096, table_bytes false dylib_table⟩, ⟨13, 24⟩,
        by decide, by decide, by decide, by decide⟩,
    (is_library_iff all_succeed swapped_dylib_image).2.2.1 .stream_read_error (by decide)⟩

/-- C12 at concrete inputs: the dylib image with file type dylib and with
file type executable. -/
theorem is_dynamic_library_eq_witness :
    ((is_library all_succeed (dylib_image filetype_dylib)).1 = some true ∧
      (is_dynamic_library all_succeed (dylib_image filetype_dylib)).1 = some true) ∧
    ((is_library all_succeed (dylib_image filetype_executable)).1 = some true ∧
      (is_dynamic_library all_succeed (dylib_image filetype_executable)).1 = some false) :=
  have h6 := (is_dynamic_library_eq all_succeed (dylib_image filetype_dylib) 4096
    (List.replicate 16 0)).2.2 (by decide) (by decide) (by decide) (by decide) (by decide)
    (by decide) (by decide) (by decide) (by decide) (by decide)
  have h2 := (is_dynamic_library_eq all_succeed (dylib_image filetype_executable) 4096
    (List.replicate 16 0)).2.2 (by decide) (by decide) (by decide) (by decide) (by decide)
    (by decide) (by decide) (by decide) (by decide) (by decide)
  ⟨⟨h6.1, h6.2.1 (by decide)⟩, ⟨h2.1, h2.2.2 (by decide)⟩⟩

/-! ## Frame properties of the lookup -/

/-- C13: on a container that already holds a load-command cache, a further
call, for any kind and whatever its outcome, leaves the whole container as it
was: no seek and no read is counted on the stream, and the stream position,
the cache and the header are unchanged. -/
theorem cached_lookup_leaves_container (env : environment) (self : container) (cmd : Nat)
    (cache : buffer) (hsome : self.cached_load_commands_ = some cache) :
    (find_first_of_load_command env self cmd).2 = self ∧
      (find_first_of_load_command env self cmd).2.stream.seeks = self.stream.seeks ∧
      (find_first_of_load_command env self cmd).2.stream.reads = self.stream.reads ∧
      (find_first_of_load_command env self cmd).2.stream.position = self.stream.position ∧
      (find_first_of_load_command env self cmd).2.cached_load_commands_ = some cache ∧
      (find_first_of_load_command env self cmd).2.header = self.header := by
  have h : (find_first_of_load_command env self cmd).2 = self := by
    by_cases hp1 : self.header.ncmds = 0 ∨ self.header.sizeofcmds < sizeof_load_command
    · simp [find_first_of_load_command, hp1]
    by_cases hp2 : self.header.sizeofcmds <
        (sizeof_load_command * self.header.ncmds) % 18446744073709551616
    · simp [find_first_of_load_command, hp1, hp2]
    simp [find_first_of_load_command, hp1, hp2, hsome]
  rw [h]
  exact ⟨rfl, rfl, rfl, rfl, hsome, rfl⟩

/-- C13 at a concrete input: a lookup of kind 13 on the sample image with its
cache in place finds the entry and changes nothing. -/
theorem cached_lookup_leaves_container_witness :
    (find_first_of_load_command all_succeed sample_swapped_image_cached 13).2 =
        sample_swapped_image_cached ∧
      (find_first_of_load_command all_succeed sample_swapped_image_cached 13).2.stream.seeks =
        sample_swapped_image_cached.stream.seeks ∧
      (find_first_of_load_command all_succeed sample_swapped_image_cached 13).2.stream.reads =
        sample_swapped_image_cached.stream.reads ∧
      (find_first_of_load_command all_succeed sample_swapped_image_cached 13).2.stream.position =
        sample_swapped_image_cached.stream.position ∧
      (find_first_of_load_command all_succeed sample_swapped_image_cached
        13).2.cached_load_commands_ = some ⟨4096, table_bytes true sample_table⟩ ∧
      (find_first_of_load_command all_succeed sample_swapped_image_cached 13).2.header =
        sample_swapped_image_cached.header :=
  cached_lookup_leaves_container all_succeed sample_swapped_image_cached 13
    ⟨4096, table_bytes true sample_table⟩ (by decide)

/-- C14: when a call starts without cache and both seeks, the allocation and
the read succeed, the stream position on return is the position at entry,
however the walk ends. -/
theorem position_restored_after_build (env : environment) (self : container) (cmd addr : Nat)
    (hnone : self.cached_load_commands_ = none)
    (e1 : env.seek_to_commands = true) (e2 : env.malloc = some addr) (e3 : env.read = true)
    (e4 : env.seek_back = true)
    (havail : self.load_command_base + self.header.sizeofcmds ≤ self.stream.contents.length) :
    (find_first_of_load_command env self cmd).2.stream.position = self.stream.position := by
  obtain ⟨s1, s2, s3, s4⟩ := env
  simp only at e1 e2 e3 e4
  subst e1 e2 e3 e4
  by_cases hp1 : self.header.ncmds = 0 ∨ self.header.sizeofcmds < sizeof_load_command
  · simp [find_first_of_load_command, hp1]
  by_cases hp2 : self.header.sizeofcmds <
      (sizeof_load_command * self.header.ncmds) % 18446744073709551616
  · simp [find_first_of_load_command, hp1, hp2]
  simp [find_first_of_load_command, hp1, hp2, hnone, stream.seek, stream.read, havail]

/-- C14 at concrete inputs: the position is 5 before and after, when the walk
ends in a match (`sample_image`, kind 2) and when it ends in a structural
error (`short_entry_image`, kind 3). -/
theorem position_restored_after_build_witness :
    (find_first_of_load_command all_succeed sample_image 2).2.stream.position =
        sample_image.stream.position ∧
      (find_first_of_load_command all_succeed short_entry_image 3).2.stream.position =
        short_entry_image.stream.position :=
  ⟨position_restored_after_build all_succeed sample_image 2 4096 (by decide) (by decide)
      (by decide) (by decide) (by decide) (by decide),
    position_restored_after_build all_succeed short_entry_image 3 4096 (by decide) (by decide)
      (by decide) (by decide) (by decide) (by decide)⟩

/-! ## Copy and move -/

/-- What the two copy operations do: both duplicate stream, base, size and
header; copy construction starts with empty caches, copy assignment leaves
the three cache pointers of the target as they were. -/
theorem copy_duplicates_identity_fields (self other : container) :
    (other.copy_constructed.stream = other.stream ∧ other.copy_constructed.base = other.base ∧
      other.copy_constructed.size = other.size ∧ other.copy_constructed.header = other.header ∧
      other.copy_constructed.cached_load_commands_ = none ∧
      other.copy_constructed.cached_symbol_table_ = none ∧
      other.copy_constructed.cached_string_table_ = none) ∧
    ((self.copy_assigned other).stream = other.stream ∧
      (self.copy_assigned other).base = other.base ∧
      (self.copy_assigned other).size = other.size ∧
      (self.copy_assigned other).header = other.header ∧
      (self.copy_assigned other).cached_load_commands_ = self.cached_load_commands_ ∧
      (self.copy_assigned other).cached_symbol_table_ = self.cached_symbol_table_ ∧
      (self.copy_assigned other).cached_string_table_ = self.cached_string_table_) :=
  ⟨⟨rfl, rfl, rfl, rfl, rfl, rfl, rfl⟩, ⟨rfl, rfl, rfl, rfl, rfl, rfl, rfl⟩⟩

/-- C15 at its failing input: copy assignment of `short_entry_image` onto
`sample_image_cached`, a target that holds a built load-command cache.  The
target takes over stream, base, size and header of the source but still holds
its old cache, and its next lookup of kind 13 answers from that stale buffer
(offset 8), where a fresh copy of the source reports
`load_command_is_too_small`. -/
theorem copy_assignment_keeps_target_cache :
    sample_image_cached.cached_load_commands_ = some ⟨4096, table_bytes false sample_table⟩ ∧
      (sample_image_cached.copy_assigned short_entry_image).stream = short_entry_image.stream ∧
      (sample_image_cached.copy_assigned short_entry_image).header = short_entry_image.header ∧
      (sample_image_cached.copy_assigned short_entry_image).cached_load_commands_ =
        some ⟨4096, table_bytes false sample_table⟩ ∧
      (find_first_of_load_command all_succeed
        (sample_image_cached.copy_assigned short_entry_image) 13).1 = .found 8 ∧
      (find_first_of_load_command all_succeed short_entry_image.copy_constructed 13).1 =
        .error .load_command_is_too_small :=
  ⟨by decide, by decide, by decide, by decide, by decide, by decide⟩

/-- The destructor frees exactly the buffers the container holds. -/
theorem destroy_eq_held (self : container) : self.destroy = self.held := by
  unfold container.destroy container.held
  cases self.cached_load_commands_ <;> cases self.cached_symbol_table_ <;>
    cases self.cached_string_table_ <;> rfl

/-- C16: starting from two containers that hold no cache buffer in common,
after move construction and after move assignment the target holds the three
cache pointers the source held and the source holds none; after copy
construction and after copy assignment no buffer is held by both; and in all
four cases destroying either container frees no buffer the other holds. -/
theorem exclusive_cache_ownership (self other : container) (moved_from : stream)
    (hd : ∀ a ∈ self.held, a ∉ other.held) :
    ((other.move_constructed moved_from).1.cached_load_commands_ = other.cached_load_commands_ ∧
      (other.move_constructed moved_from).1.cached_symbol_table_ = other.cached_symbol_table_ ∧
      (other.move_constructed moved_from).1.cached_string_table_ = other.cached_string_table_ ∧
      (other.move_constructed moved_from).2.held = [] ∧
      (∀ a ∈ (other.move_constructed moved_from).1.destroy,
        a ∉ (other.move_constructed moved_from).2.held) ∧
      (∀ a ∈ (other.move_constructed moved_from).2.destroy,
        a ∉ (other.move_constructed moved_from).1.held)) ∧
    ((self.move_assigned other moved_from).1.cached_load_commands_ =
        other.cached_load_commands_ ∧
      (self.move_assigned other moved_from).1.cached_symbol_table_ =
        other.cached_symbol_table_ ∧
      (self.move_assigned other moved_from).1.cached_string_table_ =
        other.cached_string_table_ ∧
      (self.move_assigned other moved_from).2.held = [] ∧
      (∀ a ∈ (self.move_assigned other moved_from).1.destroy,
        a ∉ (self.move_assigned other moved_from).2.held) ∧
      (∀ a ∈ (self.move_assigned other moved_from).2.destroy,
        a ∉ (self.move_assigned other moved_from).1.held)) ∧
    ((∀ a ∈ other.copy_constructed.held, a ∉ other.held) ∧
      (∀ a ∈ other.copy_constructed.destroy, a ∉ other.held) ∧
      (∀ a ∈ other.destroy, a ∉ other.copy_constructed.held)) ∧
    ((∀ a ∈ (self.copy_assigned other).held, a ∉ other.held) ∧
      (∀ a ∈ (self.copy_assigned other).destroy, a ∉ other.held) ∧
      (∀ a ∈ other.destroy, a ∉ (self.copy_assigned other).held)) := by
  have hmc : (other.move_constructed moved_from).2.held = [] := rfl
  have hma : (self.move_assigned other moved_from).2.held = [] := rfl
  have hcc : other.copy_constructed.held = [] := rfl
  have hca : (self.copy_assigned other).held = self.held := rfl
  refine ⟨⟨rfl, rfl, rfl, hmc, ?_, ?_⟩, ⟨rfl, rfl, rfl, hma, ?_, ?_⟩, ⟨?_, ?_, ?_⟩, ⟨?_, ?_, ?_⟩⟩
  · intro a _; rw [hmc]; exact List.not_mem_nil a
  · intro a ha; rw [destroy_eq_held, hmc] at ha; exact absurd ha (List.not_mem_nil a)
  · intro a _; rw [hma]; exact List.not_mem_nil a
  · intro a ha; rw [destroy_eq_held, hma] at ha; exact absurd ha (List.not_mem_nil a)
  · intro a ha; rw [hcc] at ha; exact absurd ha (List.not_mem_nil a)
  · intro a ha; rw [destroy_eq_held, hcc] at ha; exact absurd ha (List.not_mem_nil a)
  · intro a _; rw [hcc]; exact List.not_mem_nil a
  · intro a ha; rw [hca] at ha; exact hd a ha
  · intro a ha; rw [destroy_eq_held, hca] at ha; exact hd a ha
  · intro a ha hb; rw [destroy_eq_held] at ha; rw [hca] at hb; exact hd a hb ha

/-- C16 at a concrete input: move assignment and copy assignment of
`other_cached_image` (buffers 8192 and 12288) onto `sample_image_cached`
(buffer 4096). -/
theorem exclusive_cache_ownership_witness :
    ((sample_image_cached.move_assigned other_cached_image
          moved_from_stream).1.cached_load_commands_ =
        other_cached_image.cached_load_commands_ ∧
      (sample_image_cached.move_assigned other_cached_image
          moved_from_stream).1.cached_symbol_table_ =
        other_cached_image.cached_symbol_table_ ∧
      (sample_image_cached.move_assigned other_cached_image
          moved_from_stream).1.cached_string_table_ =
        other_cached_image.cached_string_table_ ∧
      (sample_image_cached.move_assigned other_cached_image moved_from_stream).2.held = [] ∧
      (∀ a ∈ (sample_image_cached.move_assigned other_cached_image moved_from_stream).1.destroy,
        a ∉ (sample_image_cached.move_assigned other_cached_image moved_from_stream).2.held) ∧
      (∀ a ∈ (sample_image_cached.move_assigned other_cached_image moved_from_stream).2.destroy,
        a ∉ (sample_image_cached.move_assigned other_cached_image
          moved_from_stream).1.held)) ∧
    ((∀ a ∈ (sample_image_cached.copy_assigned other_cached_image).held,
        a ∉ other_cached_image.held) ∧
      (∀ a ∈ (sample_image_cached.copy_assigned other_cached_image).destroy,
        a ∉ other_cached_image.held) ∧
      (∀ a ∈ other_cached_image.destroy,
        a ∉ (sample_image_cached.copy_assigned other_cached_image).held)) :=
  have h := exclusive_cache_ownership sample_image_cached other_cached_image
    moved_from_stream (by decide)
  ⟨h.2.1, h.2.2.2⟩


/-! ## The window of the container -/

/-- The field `size` is never consulted: with any other value in it the call
ends the same way and leaves the same container. -/
theorem find_first_of_load_command_ignores_size (env : environment) (self : container) (cmd n : Nat) :
    (find_first_of_load_command env { self with size := n } cmd).1 =
        (find_first_of_load_command env self cmd).1 ∧
      (find_first_of_load_command env { self with size := n } cmd).2 =
        { (find_first_of_load_command env self cmd).2 with size := n } := by
  obtain ⟨e1, e2, e3, e4⟩ := env
  obtain ⟨st, b, sz, hd, c1, c2, c3⟩ := self
  have h1 : ∀ m k, (container.mk st b m hd k c2 c3).load_command_base =
      (container.mk st b sz hd c1 c2 c3).load_command_base := fun _ _ => rfl
  have h2 : ∀ m k, (container.mk st b m hd k c2 c3).is_big_endian =
      (container.mk st b sz hd c1 c2 c3).is_big_endian := fun _ _ => rfl
  by_cases hp1 : hd.ncmds = 0 ∨ hd.sizeofcmds < sizeof_load_command
  · simp [find_first_of_load_command, hp1]
  by_cases hp2 : hd.sizeofcmds < (sizeof_load_command * hd.ncmds) % 18446744073709551616
  · simp [find_first_of_load_command, hp1, hp2]
  cases c1 with
  | some c0 => simp [find_first_of_load_command, hp1, hp2, h2]
  | none =>
    cases e1 with
    | false => simp [find_first_of_load_command, hp1, hp2, stream.seek, h1]
    | true =>
      cases e2 with
      | none => simp [find_first_of_load_command, hp1, hp2, stream.seek, h1]
      | some addr =>
        by_cases hr : e3 = true ∧
            (container.mk st b sz hd none c2 c3).load_command_base + hd.sizeofcmds ≤
              st.contents.length
        · cases e4 <;>
            simp [find_first_of_load_command, hp1, hp2, stream.seek, stream.read, hr,
              h1, h2]
        · simp [find_first_of_load_command, hp1, hp2, stream.seek, stream.read, hr, h1]

/-- C17, as stated, fails: `windowed_image` has the window `[0, 36)` while its
header declares the region `[28, 72)`.  The call issues its read all the
same, populates the cache with the 44 region bytes and returns the entry at
offset 32, which lies beyond the window. -/
theorem read_beyond_window :
    windowed_image.base + windowed_image.size <
        windowed_image.load_command_base + windowed_image.header.sizeofcmds ∧
      (find_first_of_load_command all_succeed windowed_image 2).2.stream.reads =
        windowed_image.stream.reads + 1 ∧
      (find_first_of_load_command all_succeed windowed_image 2).2.cached_load_commands_ =
        some ⟨4096, table_bytes true sample_table⟩ ∧
      (find_first_of_load_command all_succeed windowed_image 2).1 = .found 32 :=
  ⟨by decide, by decide, by decide, by decide⟩

/-- C17, amended: a call that starts without cache issues at most one read;
it populates the cache only when the region of `sizeofcmds` bytes from the
region start lies within the contents of the stream, and then with exactly
those bytes; and the length `size` of the window plays no part, the call
ending the same way and leaving the same container for every value of it. -/
theorem read_bounded_by_stream_only (env : environment) (self : container) (cmd : Nat)
    (hnone : self.cached_load_commands_ = none) :
    (find_first_of_load_command env self cmd).2.stream.reads ≤ self.stream.reads + 1 ∧
    (∀ cache, (find_first_of_load_command env self cmd).2.cached_load_commands_ = some cache →
      self.load_command_base + self.header.sizeofcmds ≤ self.stream.contents.length ∧
      cache.bytes =
        (self.stream.contents.drop self.load_command_base).take self.header.sizeofcmds) ∧
    (∀ n, (find_first_of_load_command env { self with size := n } cmd).1 =
        (find_first_of_load_command env self cmd).1 ∧
      (find_first_of_load_command env { self with size := n } cmd).2 =
        { (find_first_of_load_command env self cmd).2 with size := n }) := by
  refine ⟨?_, ?_, fun n => find_first_of_load_command_ignores_size env self cmd n⟩
  · obtain ⟨e1, e2, e3, e4⟩ := env
    by_cases hp1 : self.header.ncmds = 0 ∨ self.header.sizeofcmds < sizeof_load_command
    · simp [find_first_of_load_command, hp1]
    by_cases hp2 : self.header.sizeofcmds <
        (sizeof_load_command * self.header.ncmds) % 18446744073709551616
    · simp [find_first_of_load_command, hp1, hp2]
    cases e1 with
    | false => simp [find_first_of_load_command, hp1, hp2, hnone, stream.seek]
    | true =>
      cases e2 with
      | none => simp [find_first_of_load_command, hp1, hp2, hnone, stream.seek]
      | some addr =>
        by_cases hr : e3 = true ∧
            self.load_command_base + self.header.sizeofcmds ≤ self.stream.contents.length
        · cases e4 <;>
            simp [find_first_of_load_command, hp1, hp2, hnone, stream.seek, stream.read, hr]
        · simp [find_first_of_load_command, hp1, hp2, hnone, stream.seek, stream.read, hr]
  · intro cache hc
    obtain ⟨e1, e2, e3, e4⟩ := env
    by_cases hp1 : self.header.ncmds = 0 ∨ self.header.sizeofcmds < sizeof_load_command
    · simp [find_first_of_load_command, hp1, hnone] at hc
    by_cases hp2 : self.header.sizeofcmds <
        (sizeof_load_command * self.header.ncmds) % 18446744073709551616
    · simp [find_first_of_load_command, hp1, hp2, hnone] at hc
    cases e1 with
    | false => simp [find_first_of_load_command, hp1, hp2, hnone, stream.seek] at hc
    | true =>
      cases e2 with
      | none => simp [find_first_of_load_command, hp1, hp2, hnone, stream.seek] at hc
      | some addr =>
        by_cases hr : e3 = true ∧
            self.load_command_base + self.header.sizeofcmds ≤ self.stream.contents.length
        · refine ⟨hr.2, ?_⟩
          cases e4 <;>
            simp [find_first_of_load_command, hp1, hp2, hnone, stream.seek, stream.read, hr]
              at hc <;> rw [← hc]
        · simp [find_first_of_load_command, hp1, hp2, hnone, stream.seek, stream.read, hr] at hc

/-- C17 amended, at a concrete input: the lookup in `windowed_image`. -/
theorem read_bounded_by_stream_only_witness :
    (find_first_of_load_command all_succeed windowed_image 2).2.stream.reads ≤
        windowed_image.stream.reads + 1 ∧
    (∀ cache, (find_first_of_load_command all_succeed windowed_image 2).2.cached_load_commands_ =
        some cache →
      windowed_image.load_command_base + windowed_image.header.sizeofcmds ≤
        windowed_image.stream.contents.length ∧
      cache.bytes = (windowed_image.stream.contents.drop windowed_image.load_command_base).take
        windowed_image.header.sizeofcmds) ∧
    (∀ n, (find_first_of_load_command all_succeed { windowed_image with size := n } 2).1 =
        (find_first_of_load_command all_succeed windowed_image 2).1 ∧
      (find_first_of_load_command all_succeed { windowed_image with size := n } 2).2 =
        { (find_first_of_load_command all_succeed windowed_image 2).2 with size := n }) :=
  read_bounded_by_stream_only all_succeed windowed_image 2 (by decide)

/-! ## Failures after the seek to the region -/

/-- C18 at its failing inputs: the stream of `sample_image` is at position 5.
A call on it whose allocation fails, or whose read fails, has already moved
the stream to the load-command region at offset 36 and returns with the
stream still there. -/
theorem position_not_restored_after_failure :
    sample_image.stream.position = 5 ∧
      ((find_first_of_load_command malloc_fails sample_image 2).1 =
          .error .failed_to_allocate_memory ∧
        (find_first_of_load_command malloc_fails sample_image 2).2.stream.position = 36) ∧
      ((find_first_of_load_command read_fails sample_image 2).1 =
          .error .stream_read_error ∧
        (find_first_of_load_command read_fails sample_image 2).2.stream.position = 36) :=
  ⟨by decide, ⟨by decide, by decide⟩, ⟨by decide, by decide⟩⟩

/-! ## Bounds inside the validating walk -/

/-- C19 at its failing input: the header of `tight_image` passes the
pre-checks (`8 * 2 ≤ 17`), its first entry (`cmdsize` 12) passes validation,
and the validating loop then reads the next header at offset 12 of the
17-byte buffer, although `12 + 8 > 17`. -/
theorem header_read_past_buffer :
    tight_image.header.ncmds ≠ 0 ∧
      8 * tight_image.header.ncmds ≤ tight_image.header.sizeofcmds ∧
      validate_load_command tight_image.header.ncmds tight_image.header.sizeofcmds 0 0 12 =
        .ok 12 ∧
      ¬ (12 + 8 ≤ tight_image.header.sizeofcmds) ∧
      (find_first_of_load_command all_succeed tight_image 2).1 = .out_of_bounds 12 :=
  ⟨by decide, by decide, by rfl, by decide, by decide⟩

/-- C20 at its failing input: in `wrapping_image` (`sizeofcmds = 16`) the
second entry has `cmdsize` 4294967292.  With `size_used = 8` the checks accept
it and leave `size_used = 4`: the 32-bit total has wrapped, the exact sum
through that entry is 4294967300, and the accepted `cmdsize` is far above
`sizeofcmds`.  The whole validating walk ends without an error. -/
theorem running_total_wraps :
    validate_load_command wrapping_image.header.ncmds wrapping_image.header.sizeofcmds 1 8
        4294967292 = .ok 4 ∧
      visited wrapping_image.is_big_endian wrapping_region wrapping_image.header.ncmds 0 =
        [⟨1, 8⟩, ⟨2, 4294967292⟩] ∧
      wrapping_image.header.sizeofcmds < 8 + 4294967292 ∧
      wrapping_image.header.sizeofcmds < 4294967292 ∧
      (find_first_of_load_command all_succeed wrapping_image 7).1 = .no_match :=
  ⟨by rfl, by decide, by decide, by decide, by decide⟩

end macho
